import Mathlib

/-!
# DesignPatterns: the visitor demonstration (`src/visitor_main.cpp`) and the object
counter (`src/crtp_main.cpp`)

A shallow embedding of the equipment hierarchy, its visitors, the `std::variant`
based alternatives and the class `ObjectCounter`, followed by the properties proved
of them.

Conventions of the embedding.

* A C++ object is a Lean structure holding its data members; a member function
  takes the object as the argument `self` and returns the object as it has changed
  it. No member function of the equipment classes writes to the equipment.
* `int` is the 32 bit two's complement integer of the mainstream ABIs: a value is
  an `Int`, and every arithmetic result is stored through `wrap_int`, i.e. reduced
  modulo `2^32` into `[INT_MIN, INT_MAX]`. (C++ leaves signed overflow undefined;
  the embedding takes the result the mainstream targets compute. Whatever an
  implementation does there, an `int` holds no value above `INT_MAX`.)
* `std::size_t` is the 64 bit unsigned integer of the mainstream 64 bit ABIs: a value
  is a `Nat`, and `++` and `--` are taken modulo `2^64`. An object's address is a
  non-null value of that range, and two objects of one type that are alive at the
  same time have different addresses.
* `std::cout` is the `String` of all characters written so far; `<<` appends.
* A function that can throw returns `Except`.
-/

namespace DesignPatterns

/-! ## The `int` type -/

/-- Largest value of `int` (32 bit). -/
def INT_MAX : Int := 2147483647

/-- Smallest value of `int` (32 bit). -/
def INT_MIN : Int := -2147483648

/-- The `int` that holds the mathematical result `x`: `x` reduced modulo `2^32`
into the range `[INT_MIN, INT_MAX]`. -/
def wrap_int (x : Int) : Int := (x + 2147483648) % 4294967296 - 2147483648

/-- The operator `++x` on an `int`. -/
def pre_incr (x : Int) : Int := wrap_int (x + 1)

/-- The operator `x += y` on `int`s. -/
def add_assign (x y : Int) : Int := wrap_int (x + y)

/-! ## The equipment hierarchy -/

/-- Class `Equipment`: its one data member, the private `name`. -/
structure Equipment where
  name : String
deriving DecidableEq, Repr

/-- Member `Equipment::Name() const`: `return name;`. -/
def Equipment.Name (self : Equipment) : String := self.name

/-- Class `FloppyDisk : public Equipment`; it adds no data member. -/
structure FloppyDisk extends Equipment
deriving DecidableEq, Repr

/-- Class `Card : public Equipment`. -/
structure Card extends Equipment
deriving DecidableEq, Repr

/-- Class `Chassis : public Equipment`. -/
structure Chassis extends Equipment
deriving DecidableEq, Repr

/-- Class `Bus : public Equipment`. -/
structure Bus extends Equipment
deriving DecidableEq, Repr

/-- Constructor `FloppyDisk() : Equipment("FloppyDisk") {}`. -/
def FloppyDisk.ctor : FloppyDisk := { name := "FloppyDisk" }

/-- Constructor `Card() : Equipment("Card") {}`. -/
def Card.ctor : Card := { name := "Card" }

/-- Constructor `Chassis() : Equipment("Chassis") {}`. -/
def Chassis.ctor : Chassis := { name := "Chassis" }

/-- Constructor `Bus() : Equipment("Bus") {}`. -/
def Bus.ctor : Bus := { name := "Bus" }

/-- The implicit copy constructor of `FloppyDisk`: member-wise copy. -/
def FloppyDisk.copy (other : FloppyDisk) : FloppyDisk := { name := other.name }

/-- The implicit copy constructor of `Card`: member-wise copy. -/
def Card.copy (other : Card) : Card := { name := other.name }

/-- The implicit copy constructor of `Chassis`: member-wise copy. -/
def Chassis.copy (other : Chassis) : Chassis := { name := other.name }

/-- The implicit copy constructor of `Bus`: member-wise copy. -/
def Bus.copy (other : Bus) : Bus := { name := other.name }

/-- Inherited `Name()` on a `FloppyDisk`. -/
def FloppyDisk.Name (self : FloppyDisk) : String := self.toEquipment.Name

/-- Inherited `Name()` on a `Card`. -/
def Card.Name (self : Card) : String := self.toEquipment.Name

/-- Inherited `Name()` on a `Chassis`. -/
def Chassis.Name (self : Chassis) : String := self.toEquipment.Name

/-- Inherited `Name()` on a `Bus`. -/
def Bus.Name (self : Bus) : String := self.toEquipment.Name

/-- Override `FloppyDisk::Power() const`: `return 7;`. -/
def FloppyDisk.Power (_self : FloppyDisk) : Int := 7

/-- Override `FloppyDisk::NetPrice() const`: `return 7;`. -/
def FloppyDisk.NetPrice (_self : FloppyDisk) : Int := 7

/-- Override `FloppyDisk::DiscountPrice() const`: `return 7;`. -/
def FloppyDisk.DiscountPrice (_self : FloppyDisk) : Int := 7

/-- Override `Card::Power() const`: `return 9;`. -/
def Card.Power (_self : Card) : Int := 9

/-- Override `Card::NetPrice() const`: `return 9;`. -/
def Card.NetPrice (_self : Card) : Int := 9

/-- Override `Card::DiscountPrice() const`: `return 9;`. -/
def Card.DiscountPrice (_self : Card) : Int := 9

/-- Override `Chassis::Power() const`: `return 11;`. -/
def Chassis.Power (_self : Chassis) : Int := 11

/-- Override `Chassis::NetPrice() const`: `return 11;`. -/
def Chassis.NetPrice (_self : Chassis) : Int := 11

/-- Override `Chassis::DiscountPrice() const`: `return 11;`. -/
def Chassis.DiscountPrice (_self : Chassis) : Int := 11

/-- Override `Bus::Power() const`: `return 13;`. -/
def Bus.Power (_self : Bus) : Int := 13

/-- Override `Bus::NetPrice() const`: `return 13;`. -/
def Bus.NetPrice (_self : Bus) : Int := 13

/-- Override `Bus::DiscountPrice() const`: `return 13;`. -/
def Bus.DiscountPrice (_self : Bus) : Int := 13

/-! ## Visitors -/

/-- Abstract class `EquipmentVisitor`: its four pure virtual member functions,
acting on the visitor's own state `σ`. The argument is the pointed-to object. -/
structure EquipmentVisitor (σ : Type) where
  VisitFloppyDisk : FloppyDisk → σ → σ
  VisitCard : Card → σ → σ
  VisitChassis : Chassis → σ → σ
  VisitBus : Bus → σ → σ

/-- Member `FloppyDisk::Accept`: `visitor.VisitFloppyDisk(this);`. -/
def FloppyDisk.Accept {σ : Type} (self : FloppyDisk) (visitor : EquipmentVisitor σ) (s : σ) : σ :=
  visitor.VisitFloppyDisk self s

/-- Member `Card::Accept`: `visitor.VisitCard(this);`. -/
def Card.Accept {σ : Type} (self : Card) (visitor : EquipmentVisitor σ) (s : σ) : σ :=
  visitor.VisitCard self s

/-- Member `Chassis::Accept`: `visitor.VisitChassis(this);`. -/
def Chassis.Accept {σ : Type} (self : Chassis) (visitor : EquipmentVisitor σ) (s : σ) : σ :=
  visitor.VisitChassis self s

/-- Member `Bus::Accept`: `visitor.VisitBus(this);`. -/
def Bus.Accept {σ : Type} (self : Bus) (visitor : EquipmentVisitor σ) (s : σ) : σ :=
  visitor.VisitBus self s

/-- An object seen through an `Equipment*`: its dynamic type together with the
object itself. The four derived classes are the only ones of the program. -/
inductive EquipmentPtr where
  | FloppyDisk (obj : FloppyDisk)
  | Card (obj : Card)
  | Chassis (obj : Chassis)
  | Bus (obj : Bus)
deriving DecidableEq, Repr

/-- The virtual call `eqp->Accept(visitor)`: dispatch on the dynamic type. -/
def EquipmentPtr.Accept {σ : Type} (eqp : EquipmentPtr) (visitor : EquipmentVisitor σ) (s : σ) : σ :=
  match eqp with
  | .FloppyDisk obj => obj.Accept visitor s
  | .Card obj => obj.Accept visitor s
  | .Chassis obj => obj.Accept visitor s
  | .Bus obj => obj.Accept visitor s

/-- The virtual call `eqp->Power()`. -/
def EquipmentPtr.Power (eqp : EquipmentPtr) : Int :=
  match eqp with
  | .FloppyDisk obj => obj.Power
  | .Card obj => obj.Power
  | .Chassis obj => obj.Power
  | .Bus obj => obj.Power

/-- The virtual call `eqp->NetPrice()`. -/
def EquipmentPtr.NetPrice (eqp : EquipmentPtr) : Int :=
  match eqp with
  | .FloppyDisk obj => obj.NetPrice
  | .Card obj => obj.NetPrice
  | .Chassis obj => obj.NetPrice
  | .Bus obj => obj.NetPrice

/-- The virtual call `eqp->DiscountPrice()`. -/
def EquipmentPtr.DiscountPrice (eqp : EquipmentPtr) : Int :=
  match eqp with
  | .FloppyDisk obj => obj.DiscountPrice
  | .Card obj => obj.DiscountPrice
  | .Chassis obj => obj.DiscountPrice
  | .Bus obj => obj.DiscountPrice

/-- The call `eqp->Name()` (non-virtual, defined in the base class). -/
def EquipmentPtr.Name (eqp : EquipmentPtr) : String :=
  match eqp with
  | .FloppyDisk obj => obj.Name
  | .Card obj => obj.Name
  | .Chassis obj => obj.Name
  | .Bus obj => obj.Name

/-- Class `PricingVisitor`: no data member. -/
structure PricingVisitor where
deriving DecidableEq, Repr

/-- Class `PricingVisitor` as an `EquipmentVisitor`: the four overrides have empty bodies. -/
def PricingVisitor.vtable : EquipmentVisitor PricingVisitor where
  VisitFloppyDisk := fun _ self => self
  VisitCard := fun _ self => self
  VisitChassis := fun _ self => self
  VisitBus := fun _ self => self

/-- Class `InventoryVisitor`: its four private `int` counters. -/
structure InventoryVisitor where
  disk_count : Int
  card_count : Int
  chassis_count : Int
  bus_count : Int
deriving DecidableEq, Repr

/-- Constructor `InventoryVisitor()`: all four counters initialised to 0. -/
def InventoryVisitor.ctor : InventoryVisitor :=
  { disk_count := 0, card_count := 0, chassis_count := 0, bus_count := 0 }

/-- Member `InventoryVisitor::VisitFloppyDisk`: `++disk_count;`. -/
def InventoryVisitor.VisitFloppyDisk (_fd : FloppyDisk) (self : InventoryVisitor) :
    InventoryVisitor :=
  { self with disk_count := pre_incr self.disk_count }

/-- Member `InventoryVisitor::VisitCard`: `++card_count;`. -/
def InventoryVisitor.VisitCard (_card : Card) (self : InventoryVisitor) : InventoryVisitor :=
  { self with card_count := pre_incr self.card_count }

/-- Member `InventoryVisitor::VisitChassis`: `++chassis_count;`. -/
def InventoryVisitor.VisitChassis (_chassis : Chassis) (self : InventoryVisitor) :
    InventoryVisitor :=
  { self with chassis_count := pre_incr self.chassis_count }

/-- Member `InventoryVisitor::VisitBus`: `++bus_count;`. -/
def InventoryVisitor.VisitBus (_bus : Bus) (self : InventoryVisitor) : InventoryVisitor :=
  { self with bus_count := pre_incr self.bus_count }

/-- Class `InventoryVisitor` as an `EquipmentVisitor`: its four overrides. -/
def InventoryVisitor.vtable : EquipmentVisitor InventoryVisitor where
  VisitFloppyDisk := InventoryVisitor.VisitFloppyDisk
  VisitCard := InventoryVisitor.VisitCard
  VisitChassis := InventoryVisitor.VisitChassis
  VisitBus := InventoryVisitor.VisitBus

/-- The loop of `main`, `for (auto& eqp: eq_arr) { eqp->Accept(visitor); }`, over a
sequence of any length. -/
def accept_each {σ : Type} (visitor : EquipmentVisitor σ) (s : σ) : List EquipmentPtr → σ
  | [] => s
  | eqp :: rest => accept_each visitor (eqp.Accept visitor s) rest

/-- One recorded call of a visitor member function, with its argument. -/
inductive VisitCall where
  | VisitFloppyDisk (arg : FloppyDisk)
  | VisitCard (arg : Card)
  | VisitChassis (arg : Chassis)
  | VisitBus (arg : Bus)
deriving DecidableEq, Repr

/-- A spy around a visitor: every member function appends the call it received to a
log and then behaves as the wrapped visitor's member function. -/
def spy {σ : Type} (v : EquipmentVisitor σ) : EquipmentVisitor (σ × List VisitCall) where
  VisitFloppyDisk := fun a s => (v.VisitFloppyDisk a s.1, s.2 ++ [VisitCall.VisitFloppyDisk a])
  VisitCard := fun a s => (v.VisitCard a s.1, s.2 ++ [VisitCall.VisitCard a])
  VisitChassis := fun a s => (v.VisitChassis a s.1, s.2 ++ [VisitCall.VisitChassis a])
  VisitBus := fun a s => (v.VisitBus a s.1, s.2 ++ [VisitCall.VisitBus a])

/-! ## The tagged union -/

/-- The alias `using var_eqp_t = std::variant<FloppyDisk, Card, Chassis, Bus>;`: a value holds
exactly one of the four alternatives. (The valueless state of a `std::variant`
arises only when an assignment or `emplace` throws; the program performs neither.) -/
inductive var_eqp_t where
  | FloppyDisk (value : FloppyDisk)
  | Card (value : Card)
  | Chassis (value : Chassis)
  | Bus (value : Bus)
deriving DecidableEq, Repr

/-- The exception `std::bad_variant_access`, the invalid-access error. -/
inductive bad_variant_access where
  | mk
deriving DecidableEq, Repr

/-- Modelled from the spec: the discriminant of the tagged union (`index()` of the
standard library's `std::variant`, which is not among the repository's files): the
position of the kind currently held in the list FloppyDisk, Card, Chassis, Bus. -/
def var_eqp_t.index : var_eqp_t → Nat
  | .FloppyDisk _ => 0
  | .Card _ => 1
  | .Chassis _ => 2
  | .Bus _ => 3

/-- Modelled from the spec: the kind check `std::holds_alternative<FloppyDisk>` (standard
library, not among the repository's files): whether the kind currently held is
`FloppyDisk`. -/
def holds_alternative_FloppyDisk (v : var_eqp_t) : Bool := v.index == 0

/-- Modelled from the spec: the kind check `std::holds_alternative<Card>` (standard
library, not among the repository's files): whether the kind currently held is
`Card`. -/
def holds_alternative_Card (v : var_eqp_t) : Bool := v.index == 1

/-- Modelled from the spec: the kind check `std::holds_alternative<Chassis>` (standard
library, not among the repository's files): whether the kind currently held is
`Chassis`. -/
def holds_alternative_Chassis (v : var_eqp_t) : Bool := v.index == 2

/-- Modelled from the spec: the kind check `std::holds_alternative<Bus>` (standard
library, not among the repository's files): whether the kind currently held is
`Bus`. -/
def holds_alternative_Bus (v : var_eqp_t) : Bool := v.index == 3

/-- Modelled from the spec: the checked access `std::get<FloppyDisk>` (standard library,
not among the repository's files): it returns the held value only if the kind held
is `FloppyDisk`, and fails with the invalid-access error otherwise. -/
def get_FloppyDisk : var_eqp_t → Except bad_variant_access FloppyDisk
  | .FloppyDisk value => .ok value
  | _ => .error bad_variant_access.mk

/-- Modelled from the spec: the checked access `std::get<Card>` (standard library,
not among the repository's files): it returns the held value only if the kind held
is `Card`, and fails with the invalid-access error otherwise. -/
def get_Card : var_eqp_t → Except bad_variant_access Card
  | .Card value => .ok value
  | _ => .error bad_variant_access.mk

/-- Modelled from the spec: the checked access `std::get<Chassis>` (standard library,
not among the repository's files): it returns the held value only if the kind held
is `Chassis`, and fails with the invalid-access error otherwise. -/
def get_Chassis : var_eqp_t → Except bad_variant_access Chassis
  | .Chassis value => .ok value
  | _ => .error bad_variant_access.mk

/-- Modelled from the spec: the checked access `std::get<Bus>` (standard library,
not among the repository's files): it returns the held value only if the kind held
is `Bus`, and fails with the invalid-access error otherwise. -/
def get_Bus : var_eqp_t → Except bad_variant_access Bus
  | .Bus value => .ok value
  | _ => .error bad_variant_access.mk

/-- Modelled from the spec: type-directed overload dispatch, `std::visit(f, v)`
(standard library, not among the repository's files) for a callable with one
overload per kind: it invokes the overload of the kind currently held on the held
value. -/
def std_visit {ρ : Type} (onFloppyDisk : FloppyDisk → ρ) (onCard : Card → ρ)
    (onChassis : Chassis → ρ) (onBus : Bus → ρ) : var_eqp_t → ρ
  | .FloppyDisk value => onFloppyDisk value
  | .Card value => onCard value
  | .Chassis value => onChassis value
  | .Bus value => onBus value

/-- Conversion of an object to `var_eqp_t`, as in
`std::array<var_eqp_t, 4> equipment = {bus, card, fdisk, chassis};`: the variant
holds a copy of the object, under the alternative of its class. -/
def EquipmentPtr.to_variant : EquipmentPtr → var_eqp_t
  | .FloppyDisk obj => .FloppyDisk obj.copy
  | .Card obj => .Card obj.copy
  | .Chassis obj => .Chassis obj.copy
  | .Bus obj => .Bus obj.copy

/-! ## Explicit kind-check dispatch -/

/-- The four function-local `static int` counters of `VisitInventory`. -/
structure VisitInventory.Statics where
  disk_count : Int
  card_count : Int
  chassis_count : Int
  bus_count : Int
deriving DecidableEq, Repr

/-- The initial value of the statics: each is initialised with `= 0`. -/
def VisitInventory.Statics.init : VisitInventory.Statics :=
  { disk_count := 0, card_count := 0, chassis_count := 0, bus_count := 0 }

/-- The function `void VisitInventory(const var_eqp_t& equipment)`, on its statics
`st` and the standard output `cout`. -/
def VisitInventory (equipment : var_eqp_t) (st : VisitInventory.Statics) (cout : String) :
    Except bad_variant_access (VisitInventory.Statics × String) :=
  if holds_alternative_FloppyDisk equipment then do
    let fd := (← get_FloppyDisk equipment).copy
    let cout := cout ++ fd.Name ++ "\n"
    pure ({ st with disk_count := pre_incr st.disk_count }, cout)
  else if holds_alternative_Card equipment then do
    let card := (← get_Card equipment).copy
    let cout := cout ++ card.Name ++ "\n"
    pure ({ st with card_count := pre_incr st.card_count }, cout)
  else if holds_alternative_Chassis equipment then do
    let chassis := (← get_Chassis equipment).copy
    let cout := cout ++ chassis.Name ++ "\n"
    pure ({ st with chassis_count := pre_incr st.chassis_count }, cout)
  else if holds_alternative_Bus equipment then do
    let bus := (← get_Bus equipment).copy
    let cout := cout ++ bus.Name ++ "\n"
    pure ({ st with bus_count := pre_incr st.bus_count }, cout)
  else
    pure (st, cout)

/-- The loop of `main`, `for (const auto& eqp: equipment) { VisitInventory(eqp); }`,
over a sequence of any length. -/
def VisitInventory.each (st : VisitInventory.Statics) (cout : String) :
    List var_eqp_t → Except bad_variant_access (VisitInventory.Statics × String)
  | [] => pure (st, cout)
  | eqp :: rest => do
    let r ← VisitInventory eqp st cout
    VisitInventory.each r.1 r.2 rest

/-- Class `VIFn`: its four private `int` counters. -/
structure VIFn where
  disk_count : Int
  card_count : Int
  chassis_count : Int
  bus_count : Int
deriving DecidableEq, Repr

/-- Constructor `VIFn()`: all four counters initialised to 0. -/
def VIFn.ctor : VIFn :=
  { disk_count := 0, card_count := 0, chassis_count := 0, bus_count := 0 }

/-- Member `void VIFn::operator()(const var_eqp_t& equipment)`, on the object and the
standard output `cout`. -/
def VIFn.call (self : VIFn) (equipment : var_eqp_t) (cout : String) :
    Except bad_variant_access (VIFn × String) :=
  if holds_alternative_FloppyDisk equipment then do
    let fd := (← get_FloppyDisk equipment).copy
    let cout := cout ++ "VIFn: " ++ fd.Name ++ "\n"
    pure ({ self with disk_count := pre_incr self.disk_count }, cout)
  else if holds_alternative_Card equipment then do
    let card := (← get_Card equipment).copy
    let cout := cout ++ "VIFn: " ++ card.Name ++ "\n"
    pure ({ self with card_count := pre_incr self.card_count }, cout)
  else if holds_alternative_Chassis equipment then do
    let chassis := (← get_Chassis equipment).copy
    let cout := cout ++ "VIFn: " ++ chassis.Name ++ "\n"
    pure ({ self with chassis_count := pre_incr self.chassis_count }, cout)
  else if holds_alternative_Bus equipment then do
    let bus := (← get_Bus equipment).copy
    let cout := cout ++ "VIFn: " ++ bus.Name ++ "\n"
    pure ({ self with bus_count := pre_incr self.bus_count }, cout)
  else
    pure (self, cout)

/-- The loop of `main`, `for (const auto& eqp: equipment) { vi_fn(eqp); }`, over a
sequence of any length. -/
def VIFn.each (self : VIFn) (cout : String) :
    List var_eqp_t → Except bad_variant_access (VIFn × String)
  | [] => pure (self, cout)
  | eqp :: rest => do
    let r ← self.call eqp cout
    VIFn.each r.1 r.2 rest

/-! ## Type-directed overload dispatch -/

/-- Class `VizInvFn`: its four private `int` counters. -/
structure VizInvFn where
  disk_count : Int
  card_count : Int
  chassis_count : Int
  bus_count : Int
deriving DecidableEq, Repr

/-- Constructor `VizInvFn()`: all four counters initialised to 0. -/
def VizInvFn.ctor : VizInvFn :=
  { disk_count := 0, card_count := 0, chassis_count := 0, bus_count := 0 }

/-- Overload `void VizInvFn::operator()(const FloppyDisk& fd)`. -/
def VizInvFn.call_FloppyDisk (self : VizInvFn) (fd : FloppyDisk) (cout : String) : VizInvFn × String :=
  let cout := cout ++ "VizInvFn: " ++ fd.Name ++ "\n"
  ({ self with disk_count := pre_incr self.disk_count }, cout)

/-- Overload `void VizInvFn::operator()(const Card& card)`. -/
def VizInvFn.call_Card (self : VizInvFn) (card : Card) (cout : String) : VizInvFn × String :=
  let cout := cout ++ "VizInvFn: " ++ card.Name ++ "\n"
  ({ self with card_count := pre_incr self.card_count }, cout)

/-- Overload `void VizInvFn::operator()(const Chassis& chassis)`. -/
def VizInvFn.call_Chassis (self : VizInvFn) (chassis : Chassis) (cout : String) : VizInvFn × String :=
  let cout := cout ++ "VizInvFn: " ++ chassis.Name ++ "\n"
  ({ self with chassis_count := pre_incr self.chassis_count }, cout)

/-- Overload `void VizInvFn::operator()(const Bus& bus)`. -/
def VizInvFn.call_Bus (self : VizInvFn) (bus : Bus) (cout : String) : VizInvFn × String :=
  let cout := cout ++ "VizInvFn: " ++ bus.Name ++ "\n"
  ({ self with bus_count := pre_incr self.bus_count }, cout)

/-- The statement `std::visit([&viz_fn](auto&& arg) { viz_fn(arg); }, eqp);` of
`main`: the generic lambda resolves `viz_fn(arg)` to the overload of the held kind. -/
def VizInvFn.visit (self : VizInvFn) (eqp : var_eqp_t) (cout : String) : VizInvFn × String :=
  std_visit (fun arg => self.call_FloppyDisk arg cout) (fun arg => self.call_Card arg cout)
    (fun arg => self.call_Chassis arg cout) (fun arg => self.call_Bus arg cout) eqp

/-- The loop of `main` around that statement, over a sequence of any length. -/
def VizInvFn.each (self : VizInvFn) (cout : String) : List var_eqp_t → VizInvFn × String
  | [] => (self, cout)
  | eqp :: rest =>
    let r := self.visit eqp cout
    VizInvFn.each r.1 r.2 rest

/-- Class `VizPowFn`: its private `int total_power`. -/
structure VizPowFn where
  total_power : Int
deriving DecidableEq, Repr

/-- Constructor `VizPowFn()`: `total_power` initialised to 0. -/
def VizPowFn.ctor : VizPowFn := { total_power := 0 }

/-- Overload `void VizPowFn::operator()(const FloppyDisk& fd)`:
`total_power += fd.Power();`. -/
def VizPowFn.call_FloppyDisk (self : VizPowFn) (fd : FloppyDisk) : VizPowFn :=
  { self with total_power := add_assign self.total_power fd.Power }

/-- Overload `void VizPowFn::operator()(const Card& card)`:
`total_power += card.Power();`. -/
def VizPowFn.call_Card (self : VizPowFn) (card : Card) : VizPowFn :=
  { self with total_power := add_assign self.total_power card.Power }

/-- Overload `void VizPowFn::operator()(const Chassis& chassis)`:
`total_power += chassis.Power();`. -/
def VizPowFn.call_Chassis (self : VizPowFn) (chassis : Chassis) : VizPowFn :=
  { self with total_power := add_assign self.total_power chassis.Power }

/-- Overload `void VizPowFn::operator()(const Bus& bus)`:
`total_power += bus.Power();`. -/
def VizPowFn.call_Bus (self : VizPowFn) (bus : Bus) : VizPowFn :=
  { self with total_power := add_assign self.total_power bus.Power }

/-- Member `int VizPowFn::get_power() const`: `return total_power;`. -/
def VizPowFn.get_power (self : VizPowFn) : Int := self.total_power

/-- The statement `std::visit([&viz_pow_fn](auto&& arg) { viz_pow_fn(arg); }, eqp);`
of `main`. -/
def VizPowFn.visit (self : VizPowFn) (eqp : var_eqp_t) : VizPowFn :=
  std_visit (fun arg => self.call_FloppyDisk arg) (fun arg => self.call_Card arg)
    (fun arg => self.call_Chassis arg) (fun arg => self.call_Bus arg) eqp

/-- The loop of `main` around that statement, over a sequence of any length. -/
def VizPowFn.each (self : VizPowFn) : List var_eqp_t → VizPowFn
  | [] => self
  | eqp :: rest => VizPowFn.each (self.visit eqp) rest

/-! ## Vocabulary of the properties -/

/-- The four kinds of equipment. -/
inductive Kind where
  | FloppyDisk
  | Card
  | Chassis
  | Bus
deriving DecidableEq, Repr

/-- The label of a kind. -/
def Kind.label : Kind → String
  | .FloppyDisk => "FloppyDisk"
  | .Card => "Card"
  | .Chassis => "Chassis"
  | .Bus => "Bus"

/-- The fixed constant of a kind. -/
def Kind.constant : Kind → Int
  | .FloppyDisk => 7
  | .Card => 9
  | .Chassis => 11
  | .Bus => 13

/-- The kind held by a variant value. -/
def var_eqp_t.kind : var_eqp_t → Kind
  | .FloppyDisk _ => .FloppyDisk
  | .Card _ => .Card
  | .Chassis _ => .Chassis
  | .Bus _ => .Bus

/-- The dynamic type of an object seen through `Equipment*`. -/
def EquipmentPtr.kind : EquipmentPtr → Kind
  | .FloppyDisk _ => .FloppyDisk
  | .Card _ => .Card
  | .Chassis _ => .Chassis
  | .Bus _ => .Bus

/-- The call `Name()` on the value held by a variant. -/
def var_eqp_t.Name (v : var_eqp_t) : String :=
  std_visit FloppyDisk.Name Card.Name Chassis.Name Bus.Name v

/-- The call `Power()` on the value held by a variant. -/
def var_eqp_t.Power (v : var_eqp_t) : Int :=
  std_visit FloppyDisk.Power Card.Power Chassis.Power Bus.Power v

/-- The kind check `std::holds_alternative<K>` for a kind `K` given as a value. -/
def holds_alternative (k : Kind) (v : var_eqp_t) : Bool :=
  match k with
  | .FloppyDisk => holds_alternative_FloppyDisk v
  | .Card => holds_alternative_Card v
  | .Chassis => holds_alternative_Chassis v
  | .Bus => holds_alternative_Bus v

/-- The body of the branch of `VIFn::operator()` that the check for kind `k` guards. -/
def VIFn.branch (k : Kind) (self : VIFn) (equipment : var_eqp_t) (cout : String) :
    Except bad_variant_access (VIFn × String) :=
  match k with
  | .FloppyDisk => do
    let fd := (← get_FloppyDisk equipment).copy
    let cout := cout ++ "VIFn: " ++ fd.Name ++ "\n"
    pure ({ self with disk_count := pre_incr self.disk_count }, cout)
  | .Card => do
    let card := (← get_Card equipment).copy
    let cout := cout ++ "VIFn: " ++ card.Name ++ "\n"
    pure ({ self with card_count := pre_incr self.card_count }, cout)
  | .Chassis => do
    let chassis := (← get_Chassis equipment).copy
    let cout := cout ++ "VIFn: " ++ chassis.Name ++ "\n"
    pure ({ self with chassis_count := pre_incr self.chassis_count }, cout)
  | .Bus => do
    let bus := (← get_Bus equipment).copy
    let cout := cout ++ "VIFn: " ++ bus.Name ++ "\n"
    pure ({ self with bus_count := pre_incr self.bus_count }, cout)

/-- The `if` / `else if` chain of `VIFn::operator()` with its checks performed in the
order `order`: the first check that succeeds selects its branch, and when none does
the implicit final case leaves everything unchanged. -/
def VIFn.call_in_order (order : List Kind) (self : VIFn) (equipment : var_eqp_t)
    (cout : String) : Except bad_variant_access (VIFn × String) :=
  match order with
  | [] => pure (self, cout)
  | k :: rest =>
    if holds_alternative k equipment then VIFn.branch k self equipment cout
    else VIFn.call_in_order rest self equipment cout

/-- The number of elements of kind `k` in a sequence of variant values. -/
def count_kind (k : Kind) (xs : List var_eqp_t) : Nat :=
  xs.countP (fun e => holds_alternative k e)

/-- The number of elements of dynamic type `k` in a sequence of `Equipment*`. -/
def count_dynamic (k : Kind) (xs : List EquipmentPtr) : Nat :=
  xs.countP (fun e => decide (e.kind = k))

/-- The sum of the `Power()` values of the elements of a sequence. -/
def sum_power (xs : List var_eqp_t) : Int := (xs.map var_eqp_t.Power).sum

/-- The objects of class `FloppyDisk` a program can make: by the constructor, or by
copying one. -/
inductive FloppyDisk.Built : FloppyDisk → Prop where
  | ctor : FloppyDisk.Built FloppyDisk.ctor
  | copy {o : FloppyDisk} : FloppyDisk.Built o → FloppyDisk.Built o.copy

/-- The objects of class `Card` a program can make. -/
inductive Card.Built : Card → Prop where
  | ctor : Card.Built Card.ctor
  | copy {o : Card} : Card.Built o → Card.Built o.copy

/-- The objects of class `Chassis` a program can make. -/
inductive Chassis.Built : Chassis → Prop where
  | ctor : Chassis.Built Chassis.ctor
  | copy {o : Chassis} : Chassis.Built o → Chassis.Built o.copy

/-- The objects of class `Bus` a program can make. -/
inductive Bus.Built : Bus → Prop where
  | ctor : Bus.Built Bus.ctor
  | copy {o : Bus} : Bus.Built o → Bus.Built o.copy

/-- The variant values a program can make: the held value is such an object. -/
def var_eqp_t.Built : var_eqp_t → Prop
  | .FloppyDisk value => value.Built
  | .Card value => value.Built
  | .Chassis value => value.Built
  | .Bus value => value.Built

/-- The objects a program can reach through an `Equipment*`. -/
def EquipmentPtr.Built : EquipmentPtr → Prop
  | .FloppyDisk obj => obj.Built
  | .Card obj => obj.Built
  | .Chassis obj => obj.Built
  | .Bus obj => obj.Built

/-- The lines of a character stream: `cur` holds the characters of the line being
read; a newline ends the line. Characters after the last newline are a last,
unterminated line. -/
def lines_from (cur : List Char) : List Char → List String
  | [] => if cur = [] then [] else [String.mk cur]
  | c :: rest =>
    if c = '\n' then String.mk cur :: lines_from [] rest
    else lines_from (cur ++ [c]) rest

/-- The lines of the text written to the standard output. -/
def lines_of (cout : String) : List String := lines_from [] cout.data

/-- The counter of an `InventoryVisitor` that belongs to kind `k`. -/
def InventoryVisitor.counter (self : InventoryVisitor) : Kind → Int
  | .FloppyDisk => self.disk_count
  | .Card => self.card_count
  | .Chassis => self.chassis_count
  | .Bus => self.bus_count

/-- The counter of the statics of `VisitInventory` that belongs to kind `k`. -/
def VisitInventory.Statics.counter (self : VisitInventory.Statics) : Kind → Int
  | .FloppyDisk => self.disk_count
  | .Card => self.card_count
  | .Chassis => self.chassis_count
  | .Bus => self.bus_count

/-- The counter of a `VIFn` that belongs to kind `k`. -/
def VIFn.counter (self : VIFn) : Kind → Int
  | .FloppyDisk => self.disk_count
  | .Card => self.card_count
  | .Chassis => self.chassis_count
  | .Bus => self.bus_count

/-- The counter of a `VizInvFn` that belongs to kind `k`. -/
def VizInvFn.counter (self : VizInvFn) : Kind → Int
  | .FloppyDisk => self.disk_count
  | .Card => self.card_count
  | .Chassis => self.chassis_count
  | .Bus => self.bus_count

/-- Whether a counter that holds `c` can take `n` more increments (or an addition of
`n`) with every value staying in the range of `int`. -/
def fits_int (c n : Int) : Prop := INT_MIN ≤ c ∧ c + n ≤ INT_MAX

/-- The text a traversal writes for a sequence when it writes `line e` and a newline
for each element `e`, in the order of the sequence. -/
def written (line : var_eqp_t → String) : List var_eqp_t → String
  | [] => ""
  | e :: rest => line e ++ "\n" ++ written line rest

/-- The array `eq_arr` of `main`: pointers to `bus`, `card`, `fdisk`, `chassis`. -/
def main_eq_arr : List EquipmentPtr :=
  [.Bus Bus.ctor, .Card Card.ctor, .FloppyDisk FloppyDisk.ctor, .Chassis Chassis.ctor]

/-- The array `equipment` of `main`: `{bus, card, fdisk, chassis}`, each converted to a
`var_eqp_t`. -/
def main_equipment : List var_eqp_t := main_eq_arr.map EquipmentPtr.to_variant

/-! ## The object counter (`src/crtp_main.cpp`) -/

/-- Largest value of `std::size_t` (64 bit, as on the mainstream 64 bit ABIs). -/
def SIZE_MAX : Nat := 18446744073709551615

/-- The operator `++x` on a `std::size_t`: unsigned arithmetic is modulo `2^64`. -/
def size_pre_incr (x : Nat) : Nat := (x + 1) % 18446744073709551616

/-- The operator `--x` on a `std::size_t`: unsigned arithmetic is modulo `2^64`. -/
def size_pre_decr (x : Nat) : Nat := (x + 18446744073709551615) % 18446744073709551616

/-- The static data member of `ObjectCounter<CountedType>`, one per counted type:
`inline static std::size_t count`. The class has no other data member. -/
structure ObjectCounter.Statics where
  count : Nat
deriving DecidableEq, Repr

/-- The initial value of the static: `count = 0`. -/
def ObjectCounter.Statics.init : ObjectCounter.Statics := { count := 0 }

/-- Constructor `ObjectCounter() noexcept { ++count; }`. -/
def ObjectCounter.ctor (s : ObjectCounter.Statics) : ObjectCounter.Statics :=
  { s with count := size_pre_incr s.count }

/-- Copy constructor `ObjectCounter(const ObjectCounter<CountedType>&) noexcept`:
`++count;`. -/
def ObjectCounter.copy_ctor (s : ObjectCounter.Statics) : ObjectCounter.Statics :=
  { s with count := size_pre_incr s.count }

/-- Move constructor `ObjectCounter(ObjectCounter<CountedType>&&) noexcept`:
`++count;`. -/
def ObjectCounter.move_ctor (s : ObjectCounter.Statics) : ObjectCounter.Statics :=
  { s with count := size_pre_incr s.count }

/-- Destructor `~ObjectCounter() { --count; }`. -/
def ObjectCounter.dtor (s : ObjectCounter.Statics) : ObjectCounter.Statics :=
  { s with count := size_pre_decr s.count }

/-- Static member `live()`: `return count;`. -/
def ObjectCounter.live (s : ObjectCounter.Statics) : Nat := s.count

/-- One event in the life of the objects of a counted type: a construction of one of
the three forms, or a destruction; `addr` is the address of the object (`this`). -/
inductive ObjectCounter.Event where
  | default_construct (addr : Nat)
  | copy_construct (addr : Nat)
  | move_construct (addr : Nat)
  | destroy (addr : Nat)
deriving DecidableEq, Repr

/-- Whether the event is a construction. -/
def ObjectCounter.Event.is_construction : ObjectCounter.Event → Bool
  | .destroy _ => false
  | _ => true

/-- The program state the counter is about: the static `count`, and the addresses at
which an object of the counted type is currently alive. -/
structure ObjectCounter.World where
  statics : ObjectCounter.Statics
  objects : Finset Nat

/-- The state at program start: `count` is 0 and no object is alive. -/
def ObjectCounter.World.init : ObjectCounter.World :=
  { statics := ObjectCounter.Statics.init, objects := ∅ }

/-- The effect of one event: the constructor or destructor of `ObjectCounter` runs,
and the object at `addr` starts or stops being alive. -/
def ObjectCounter.World.step (w : ObjectCounter.World) : ObjectCounter.Event → ObjectCounter.World
  | .default_construct addr =>
    { statics := ObjectCounter.ctor w.statics, objects := insert addr w.objects }
  | .copy_construct addr =>
    { statics := ObjectCounter.copy_ctor w.statics, objects := insert addr w.objects }
  | .move_construct addr =>
    { statics := ObjectCounter.move_ctor w.statics, objects := insert addr w.objects }
  | .destroy addr =>
    { statics := ObjectCounter.dtor w.statics, objects := w.objects.erase addr }

/-- The effect of a sequence of events. -/
def ObjectCounter.World.run (w : ObjectCounter.World) : List ObjectCounter.Event → ObjectCounter.World
  | [] => w
  | ev :: rest => ObjectCounter.World.run (w.step ev) rest

/-- Whether an event can happen in a state: an object is constructed at an address (a
non-null pointer value, hence between 1 and `SIZE_MAX`) where no object of the
counted type is alive, and only an object that is alive is destroyed. -/
def ObjectCounter.Event.possible (w : ObjectCounter.World) : ObjectCounter.Event → Prop
  | .default_construct addr => 0 < addr ∧ addr ≤ SIZE_MAX ∧ addr ∉ w.objects
  | .copy_construct addr => 0 < addr ∧ addr ≤ SIZE_MAX ∧ addr ∉ w.objects
  | .move_construct addr => 0 < addr ∧ addr ≤ SIZE_MAX ∧ addr ∉ w.objects
  | .destroy addr => addr ∈ w.objects

/-- Whether a sequence of events can happen from a state, one event after the other. -/
def ObjectCounter.World.admits (w : ObjectCounter.World) : List ObjectCounter.Event → Prop
  | [] => True
  | ev :: rest => ev.possible w ∧ ObjectCounter.World.admits (w.step ev) rest

/-- The number of constructions in a sequence of events. -/
def ObjectCounter.constructions (evs : List ObjectCounter.Event) : Nat :=
  evs.countP (fun ev => ev.is_construction)

/-- The number of destructions in a sequence of events. -/
def ObjectCounter.destructions (evs : List ObjectCounter.Event) : Nat :=
  evs.countP (fun ev => !ev.is_construction)

/-- The struct `Pod : public ObjectCounter<Pod>`: its data member `int data`. -/
structure Pod where
  data : Int
deriving DecidableEq, Repr

/-- Value-initialisation of a `Pod` through `Pod() = default;`, as performed for each
element by `std::vector<Pod> vec(n)`: the base constructor runs and `data` is zero. -/
def Pod.value_init (s : ObjectCounter.Statics) : Pod × ObjectCounter.Statics :=
  ({ data := 0 }, ObjectCounter.ctor s)

/-- Constructor `explicit Pod(int d) : data(d) {}`: the base constructor runs first. -/
def Pod.ctor_int (d : Int) (s : ObjectCounter.Statics) : Pod × ObjectCounter.Statics :=
  ({ data := d }, ObjectCounter.ctor s)

/-- The implicit destructor of `Pod`: the base destructor runs. -/
def Pod.dtor (_self : Pod) (s : ObjectCounter.Statics) : ObjectCounter.Statics :=
  ObjectCounter.dtor s

/-- The declaration `std::vector<Pod> vec(n);`: `n` value-initialised elements. -/
def vector_Pod_ctor : Nat → ObjectCounter.Statics → List Pod × ObjectCounter.Statics
  | 0, s => ([], s)
  | n + 1, s =>
    let first := Pod.value_init s
    let others := vector_Pod_ctor n first.2
    (first.1 :: others.1, others.2)

/-- The destructor of a `std::vector<Pod>`: every element is destroyed. -/
def vector_Pod_dtor : List Pod → ObjectCounter.Statics → ObjectCounter.Statics
  | [], s => s
  | p :: rest, s => vector_Pod_dtor rest (p.dtor s)

/-- The state of `crtp_counter_client` at its first output statement: `some_pod(9)`
and `vec(11)` have been constructed. -/
def crtp_counter_client_locals (s : ObjectCounter.Statics) :
    Pod × List Pod × ObjectCounter.Statics :=
  let some_pod := Pod.ctor_int 9 s
  let vec := vector_Pod_ctor 11 some_pod.2
  (some_pod.1, vec.1, vec.2)

/-- The function `void crtp_counter_client()`, on the static of `ObjectCounter<Pod>`
and the standard output; `{}` formats a number in decimal. The locals are destroyed
at the end, `vec` before `some_pod`. -/
def crtp_counter_client (s : ObjectCounter.Statics) (cout : String) :
    ObjectCounter.Statics × String :=
  let locals := crtp_counter_client_locals s
  let some_pod := locals.1
  let vec := locals.2.1
  let s := locals.2.2
  let cout := cout ++ "Pod count:\t " ++ toString (ObjectCounter.live s) ++ "\n"
  let cout := cout ++ "Pod default data: "
    ++ (match vec with
        | first :: _ => toString first.data
        | [] => "") ++ "\n"
  let s := vector_Pod_dtor vec s
  let s := some_pod.dtor s
  (s, cout)

/-- The invariant of the counter: `count` is the number of objects alive, and every
object alive is at a non-null address. -/
def ObjectCounter.World.consistent (w : ObjectCounter.World) : Prop :=
  w.statics.count = w.objects.card ∧ ∀ a ∈ w.objects, 0 < a ∧ a ≤ SIZE_MAX

/-- The constructions `crtp_counter_client` performs before its first output
statement, with addresses chosen for the locals: `some_pod`, then the 11 elements of
`vec`, 4 bytes apart. -/
def crtp_counter_client_events : List ObjectCounter.Event :=
  ObjectCounter.Event.default_construct 4096 ::
    (List.range 11).map (fun i => ObjectCounter.Event.default_construct (8192 + 4 * i))

/-! # Properties -/

/-! ## Arithmetic of `int` -/

theorem wrap_int_of_range {x : Int} (hlo : INT_MIN ≤ x) (hhi : x ≤ INT_MAX) : wrap_int x = x := by
  unfold wrap_int
  unfold INT_MIN at hlo
  unfold INT_MAX at hhi
  omega

theorem wrap_int_wrap_add (a b : Int) : wrap_int (wrap_int a + b) = wrap_int (a + b) := by
  unfold wrap_int
  omega

theorem pre_incr_of_lt {x : Int} (hlo : INT_MIN ≤ x) (hhi : x < INT_MAX) : pre_incr x = x + 1 := by
  unfold pre_incr
  apply wrap_int_of_range <;> omega

theorem iterate_pre_incr_fits (n : Nat) (c : Int) (h : fits_int c n) :
    pre_incr^[n] c = c + n := by
  induction n generalizing c with
  | zero => simp
  | succ m ih =>
    obtain ⟨hlo, hhi⟩ := h
    have hstep : pre_incr c = c + 1 := pre_incr_of_lt hlo (by push_cast at hhi; omega)
    rw [Function.iterate_succ_apply, hstep, ih (c + 1) ⟨by omega, by push_cast at hhi ⊢; omega⟩]
    push_cast
    ring

theorem iterate_pre_incr_wrap (n : Nat) (c : Int) (hn : 0 < n) :
    pre_incr^[n] c = wrap_int (c + n) := by
  induction n generalizing c with
  | zero => omega
  | succ m ih =>
    rw [Function.iterate_succ_apply]
    rcases Nat.eq_zero_or_pos m with hm | hm
    · subst hm
      simp [pre_incr]
    · rw [ih (pre_incr c) hm, pre_incr, wrap_int_wrap_add]
      congr 1
      push_cast
      ring

/-! ## Properties of the closed hierarchy -/

/-- C1: for each of the four kinds and every visitor, `Accept` runs the visitor's
member function of that kind on that very object, and a spy around the visitor
records exactly one call, the one of that kind with that object as argument. -/
theorem accept_dispatches_to_own_kind {σ : Type} (v : EquipmentVisitor σ) (s : σ)
    (log : List VisitCall) :
    (∀ fd : FloppyDisk,
        (EquipmentPtr.FloppyDisk fd).Accept v s = v.VisitFloppyDisk fd s ∧
        (EquipmentPtr.FloppyDisk fd).Accept (spy v) (s, log)
          = (v.VisitFloppyDisk fd s, log ++ [VisitCall.VisitFloppyDisk fd])) ∧
    (∀ card : Card,
        (EquipmentPtr.Card card).Accept v s = v.VisitCard card s ∧
        (EquipmentPtr.Card card).Accept (spy v) (s, log)
          = (v.VisitCard card s, log ++ [VisitCall.VisitCard card])) ∧
    (∀ chassis : Chassis,
        (EquipmentPtr.Chassis chassis).Accept v s = v.VisitChassis chassis s ∧
        (EquipmentPtr.Chassis chassis).Accept (spy v) (s, log)
          = (v.VisitChassis chassis s, log ++ [VisitCall.VisitChassis chassis])) ∧
    (∀ bus : Bus,
        (EquipmentPtr.Bus bus).Accept v s = v.VisitBus bus s ∧
        (EquipmentPtr.Bus bus).Accept (spy v) (s, log)
          = (v.VisitBus bus s, log ++ [VisitCall.VisitBus bus])) := by
  refine ⟨fun fd => ⟨rfl, rfl⟩, fun card => ⟨rfl, rfl⟩, fun chassis => ⟨rfl, rfl⟩,
    fun bus => ⟨rfl, rfl⟩⟩

/-! ## The inventory visitor on a sequence -/

theorem InventoryVisitor_accept_counter (k : Kind) (s : InventoryVisitor) (e : EquipmentPtr) :
    (e.Accept InventoryVisitor.vtable s).counter k
      = if e.kind = k then pre_incr (s.counter k) else s.counter k := by
  cases e <;> cases k <;> rfl

theorem InventoryVisitor_accept_each_counter (k : Kind) (s : InventoryVisitor)
    (xs : List EquipmentPtr) :
    (accept_each InventoryVisitor.vtable s xs).counter k
      = pre_incr^[count_dynamic k xs] (s.counter k) := by
  induction xs generalizing s with
  | nil => rfl
  | cons e rest ih =>
    rw [accept_each, ih, InventoryVisitor_accept_counter]
    by_cases hk : e.kind = k
    · simp [count_dynamic, List.countP_cons, hk, Function.iterate_succ_apply]
    · simp [count_dynamic, List.countP_cons, hk]

theorem accept_each_append {σ : Type} (v : EquipmentVisitor σ) (s : σ)
    (xs ys : List EquipmentPtr) :
    accept_each v s (xs ++ ys) = accept_each v (accept_each v s xs) ys := by
  induction xs generalizing s with
  | nil => rfl
  | cons e rest ih => exact ih _

theorem count_dynamic_replicate (k : Kind) (n : Nat) (e : EquipmentPtr) (h : e.kind = k) :
    count_dynamic k (List.replicate n e) = n := by
  simp [count_dynamic, List.countP_replicate, h]

theorem InventoryVisitor_ext_counter {a b : InventoryVisitor}
    (h : ∀ k, a.counter k = b.counter k) : a = b := by
  cases a
  cases b
  have h1 := h .FloppyDisk
  have h2 := h .Card
  have h3 := h .Chassis
  have h4 := h .Bus
  simp only [InventoryVisitor.counter] at h1 h2 h3 h4
  simp [h1, h2, h3, h4]

/-- C2 (as amended): a freshly constructed `InventoryVisitor` that has accepted every
element of a sequence in turn holds, in the counter of each kind that occurs at most
`INT_MAX` times in the sequence, the number of elements of that kind; the empty
sequence leaves the four counters at 0 and `[Bus, Card, FloppyDisk, Chassis]` leaves
each at 1. -/
theorem inventory_visitor_counts (xs : List EquipmentPtr) (k : Kind)
    (h : (count_dynamic k xs : Int) ≤ INT_MAX) :
    (accept_each InventoryVisitor.vtable InventoryVisitor.ctor xs).counter k
        = count_dynamic k xs ∧
    accept_each InventoryVisitor.vtable InventoryVisitor.ctor []
        = { disk_count := 0, card_count := 0, chassis_count := 0, bus_count := 0 } ∧
    accept_each InventoryVisitor.vtable InventoryVisitor.ctor
        [.Bus Bus.ctor, .Card Card.ctor, .FloppyDisk FloppyDisk.ctor, .Chassis Chassis.ctor]
        = { disk_count := 1, card_count := 1, chassis_count := 1, bus_count := 1 } := by
  refine ⟨?_, rfl, by decide⟩
  rw [InventoryVisitor_accept_each_counter, iterate_pre_incr_fits]
  · cases k <;> simp [InventoryVisitor.counter, InventoryVisitor.ctor]
  · refine ⟨?_, ?_⟩
    · cases k <;> simp [InventoryVisitor.counter, InventoryVisitor.ctor, INT_MIN]
    · cases k <;> simpa [InventoryVisitor.counter, InventoryVisitor.ctor] using h

/-- C2, witness: the sequence of `main`, counted for kind `Bus`. -/
theorem inventory_visitor_counts_witness :
    (accept_each InventoryVisitor.vtable InventoryVisitor.ctor
        [.Bus Bus.ctor, .Card Card.ctor, .FloppyDisk FloppyDisk.ctor,
          .Chassis Chassis.ctor]).counter .Bus = 1 :=
  (inventory_visitor_counts
    [.Bus Bus.ctor, .Card Card.ctor, .FloppyDisk FloppyDisk.ctor, .Chassis Chassis.ctor]
    .Bus (by decide)).1

theorem InventoryVisitor_counter_FloppyDisk (s : InventoryVisitor) :
    s.counter .FloppyDisk = s.disk_count := rfl

theorem InventoryVisitor_accept_replicate_FloppyDisk (n : Nat) (hn : 0 < n) :
    (accept_each InventoryVisitor.vtable InventoryVisitor.ctor
        (List.replicate n (EquipmentPtr.FloppyDisk FloppyDisk.ctor))).disk_count
      = wrap_int n ∧
    count_dynamic .FloppyDisk (List.replicate n (EquipmentPtr.FloppyDisk FloppyDisk.ctor))
      = n := by
  have hc := count_dynamic_replicate .FloppyDisk n (EquipmentPtr.FloppyDisk FloppyDisk.ctor) rfl
  refine ⟨?_, hc⟩
  rw [← InventoryVisitor_counter_FloppyDisk, InventoryVisitor_accept_each_counter, hc,
    iterate_pre_incr_wrap _ _ hn]
  simp [InventoryVisitor.counter, InventoryVisitor.ctor]

theorem wrap_int_two_pow_31 : wrap_int ((2147483648 : Nat) : Int) = -2147483648 := by
  decide

/-- C2, counterexample: after a fresh `InventoryVisitor` has accepted `2^31` floppy
disks, `disk_count` is `-2^31`, not the number `2^31` of floppy disks accepted. -/
theorem inventory_visitor_counts_overflow :
    (accept_each InventoryVisitor.vtable InventoryVisitor.ctor
        (List.replicate 2147483648 (EquipmentPtr.FloppyDisk FloppyDisk.ctor))).disk_count
      = -2147483648 ∧
    (count_dynamic .FloppyDisk
        (List.replicate 2147483648 (EquipmentPtr.FloppyDisk FloppyDisk.ctor)) : Int)
      = 2147483648 ∧
    (accept_each InventoryVisitor.vtable InventoryVisitor.ctor
        (List.replicate 2147483648 (EquipmentPtr.FloppyDisk FloppyDisk.ctor))).disk_count
      ≠ (count_dynamic .FloppyDisk
        (List.replicate 2147483648 (EquipmentPtr.FloppyDisk FloppyDisk.ctor)) : Int) := by
  obtain ⟨hv, hc⟩ := InventoryVisitor_accept_replicate_FloppyDisk 2147483648 (by decide)
  rw [wrap_int_two_pow_31] at hv
  rw [hv, hc]
  refine ⟨rfl, ?_, ?_⟩
  · norm_num
  · norm_num

/-! ## One step of each dispatch style -/

theorem holds_alternative_iff (k : Kind) (e : var_eqp_t) :
    holds_alternative k e = true ↔ e.kind = k := by
  cases e <;> cases k <;>
    simp [holds_alternative, holds_alternative_FloppyDisk, holds_alternative_Card,
      holds_alternative_Chassis, holds_alternative_Bus, var_eqp_t.index, var_eqp_t.kind]

theorem count_kind_cons (k : Kind) (e : var_eqp_t) (rest : List var_eqp_t) :
    count_kind k (e :: rest) = count_kind k rest + if e.kind = k then 1 else 0 := by
  simp [count_kind, List.countP_cons, holds_alternative_iff]

theorem iterate_pre_incr_cons (k : Kind) (e : var_eqp_t) (rest : List var_eqp_t) (c : Int) :
    pre_incr^[count_kind k (e :: rest)] c
      = pre_incr^[count_kind k rest] (if e.kind = k then pre_incr c else c) := by
  rw [count_kind_cons]
  by_cases hk : e.kind = k
  · simp [hk, Function.iterate_succ_apply]
  · simp [hk]

theorem VisitInventory_ok (e : var_eqp_t) (st : VisitInventory.Statics) (cout : String) :
    ∃ s, VisitInventory e st cout = .ok (s, cout ++ e.Name ++ "\n") ∧
      ∀ k, s.counter k = if e.kind = k then pre_incr (st.counter k) else st.counter k := by
  cases e <;> exact ⟨_, rfl, fun k => by cases k <;> rfl⟩

theorem VIFn_call_ok (self : VIFn) (e : var_eqp_t) (cout : String) :
    ∃ s, self.call e cout = .ok (s, cout ++ "VIFn: " ++ e.Name ++ "\n") ∧
      ∀ k, s.counter k = if e.kind = k then pre_incr (self.counter k) else self.counter k := by
  cases e <;> exact ⟨_, rfl, fun k => by cases k <;> rfl⟩

theorem VizInvFn_visit_eq (self : VizInvFn) (e : var_eqp_t) (cout : String) :
    (self.visit e cout).2 = cout ++ "VizInvFn: " ++ e.Name ++ "\n" ∧
      ∀ k, (self.visit e cout).1.counter k
        = if e.kind = k then pre_incr (self.counter k) else self.counter k := by
  cases e <;> exact ⟨rfl, fun k => by cases k <;> rfl⟩

/-! ## Whole traversals -/

theorem VisitInventory_each_ok (xs : List var_eqp_t) (st : VisitInventory.Statics)
    (cout : String) :
    ∃ s, VisitInventory.each st cout xs = .ok (s, cout ++ written var_eqp_t.Name xs) ∧
      ∀ k, s.counter k = pre_incr^[count_kind k xs] (st.counter k) := by
  induction xs generalizing st cout with
  | nil => exact ⟨st, by simp [VisitInventory.each, written, pure, Except.pure], fun k => rfl⟩
  | cons e rest ih =>
    obtain ⟨s1, h1, hc1⟩ := VisitInventory_ok e st cout
    obtain ⟨s2, h2, hc2⟩ := ih s1 (cout ++ e.Name ++ "\n")
    refine ⟨s2, ?_, fun k => ?_⟩
    · simp only [VisitInventory.each, h1, bind, Except.bind]
      rw [h2]
      simp only [written, String.append_assoc]
    · rw [hc2, hc1, iterate_pre_incr_cons]

theorem VIFn_each_ok (xs : List var_eqp_t) (self : VIFn) (cout : String) :
    ∃ s, VIFn.each self cout xs
        = .ok (s, cout ++ written (fun e => "VIFn: " ++ e.Name) xs) ∧
      ∀ k, s.counter k = pre_incr^[count_kind k xs] (self.counter k) := by
  induction xs generalizing self cout with
  | nil => exact ⟨self, by simp [VIFn.each, written, pure, Except.pure], fun k => rfl⟩
  | cons e rest ih =>
    obtain ⟨s1, h1, hc1⟩ := VIFn_call_ok self e cout
    obtain ⟨s2, h2, hc2⟩ := ih s1 (cout ++ "VIFn: " ++ e.Name ++ "\n")
    refine ⟨s2, ?_, fun k => ?_⟩
    · simp only [VIFn.each, h1, bind, Except.bind]
      rw [h2]
      simp only [written, String.append_assoc]
    · rw [hc2, hc1, iterate_pre_incr_cons]

theorem VizInvFn_each_eq (xs : List var_eqp_t) (self : VizInvFn) (cout : String) :
    (VizInvFn.each self cout xs).2
        = cout ++ written (fun e => "VizInvFn: " ++ e.Name) xs ∧
      ∀ k, (VizInvFn.each self cout xs).1.counter k
        = pre_incr^[count_kind k xs] (self.counter k) := by
  induction xs generalizing self cout with
  | nil => exact ⟨by simp [VizInvFn.each, written], fun k => rfl⟩
  | cons e rest ih =>
    obtain ⟨h1, hc1⟩ := VizInvFn_visit_eq self e cout
    obtain ⟨h2, hc2⟩ := ih (self.visit e cout).1 (self.visit e cout).2
    refine ⟨?_, fun k => ?_⟩
    · simp only [VizInvFn.each]
      rw [h2, h1]
      simp only [written, String.append_assoc]
    · simp only [VizInvFn.each]
      rw [hc2, hc1, iterate_pre_incr_cons]

/-! ## The power total -/

theorem var_eqp_t_Power_eq_constant (e : var_eqp_t) : e.Power = e.kind.constant := by
  cases e <;> rfl

theorem var_eqp_t_Power_pos (e : var_eqp_t) : 0 < e.Power := by
  rw [var_eqp_t_Power_eq_constant]
  cases e.kind <;> decide

theorem sum_power_cons (e : var_eqp_t) (rest : List var_eqp_t) :
    sum_power (e :: rest) = e.Power + sum_power rest := by
  simp [sum_power]

theorem sum_power_nonneg (xs : List var_eqp_t) : 0 ≤ sum_power xs := by
  induction xs with
  | nil => simp [sum_power]
  | cons e rest ih =>
    rw [sum_power_cons]
    have := var_eqp_t_Power_pos e
    omega

theorem VizPowFn_visit_total (self : VizPowFn) (e : var_eqp_t) :
    (self.visit e).total_power = add_assign self.total_power e.Power := by
  cases e <;> rfl

theorem VizPowFn_each_fits (xs : List var_eqp_t) (self : VizPowFn)
    (h : fits_int self.total_power (sum_power xs)) :
    (VizPowFn.each self xs).total_power = self.total_power + sum_power xs := by
  induction xs generalizing self with
  | nil => simp [VizPowFn.each, sum_power]
  | cons e rest ih =>
    obtain ⟨hlo, hhi⟩ := h
    rw [sum_power_cons] at hhi
    have hpos := var_eqp_t_Power_pos e
    have hnn := sum_power_nonneg rest
    have hstep : (self.visit e).total_power = self.total_power + e.Power := by
      rw [VizPowFn_visit_total, add_assign]
      apply wrap_int_of_range <;> omega
    rw [VizPowFn.each, ih (self.visit e) ⟨by omega, by omega⟩, hstep, sum_power_cons]
    ring

theorem VizPowFn_each_wrap (xs : List var_eqp_t) (self : VizPowFn) (hne : xs ≠ []) :
    (VizPowFn.each self xs).total_power = wrap_int (self.total_power + sum_power xs) := by
  induction xs generalizing self with
  | nil => exact absurd rfl hne
  | cons e rest ih =>
    rw [VizPowFn.each, sum_power_cons]
    rcases rest with _ | ⟨e2, rest2⟩
    · simp [VizPowFn.each, VizPowFn_visit_total, add_assign, sum_power]
    · rw [ih (self.visit e) (by simp), VizPowFn_visit_total, add_assign, wrap_int_wrap_add]
      congr 1
      ring

theorem VizPowFn_each_append (xs ys : List var_eqp_t) (self : VizPowFn) :
    VizPowFn.each self (xs ++ ys) = VizPowFn.each (VizPowFn.each self xs) ys := by
  induction xs generalizing self with
  | nil => rfl
  | cons e rest ih => exact ih _

theorem sum_power_replicate (n : Nat) (e : var_eqp_t) :
    sum_power (List.replicate n e) = n * e.Power := by
  induction n with
  | zero => simp [sum_power]
  | succ m ih =>
    rw [List.replicate_succ, sum_power_cons, ih]
    push_cast
    ring

/-- C3 (as amended): for every sequence of variant values whose `Power()` constants (7
for FloppyDisk, 9 for Card, 11 for Chassis, 13 for Bus) sum to at most `INT_MAX`,
a freshly constructed `VizPowFn` applied to each element through `std::visit` makes
`get_power()` return that sum; `[Bus, Card, FloppyDisk, Chassis]` gives 40 and the
empty sequence 0. -/
theorem power_total (xs : List var_eqp_t) (h : sum_power xs ≤ INT_MAX) :
    (VizPowFn.each VizPowFn.ctor xs).get_power = sum_power xs ∧
    sum_power xs = (xs.map (fun e => e.kind.constant)).sum ∧
    (VizPowFn.each VizPowFn.ctor
        [.Bus Bus.ctor, .Card Card.ctor, .FloppyDisk FloppyDisk.ctor,
          .Chassis Chassis.ctor]).get_power = 40 ∧
    (VizPowFn.each VizPowFn.ctor []).get_power = 0 := by
  refine ⟨?_, ?_, by decide, rfl⟩
  · have hfit : fits_int VizPowFn.ctor.total_power (sum_power xs) :=
      ⟨by decide, by simpa [VizPowFn.ctor] using h⟩
    rw [VizPowFn.get_power, VizPowFn_each_fits xs _ hfit]
    simp [VizPowFn.ctor]
  · unfold sum_power
    congr 1
    exact List.map_congr_left (fun e _ => var_eqp_t_Power_eq_constant e)

/-- C3, witness: the sequence of `main`, whose constants sum to 40. -/
theorem power_total_witness :
    (VizPowFn.each VizPowFn.ctor
        [.Bus Bus.ctor, .Card Card.ctor, .FloppyDisk FloppyDisk.ctor,
          .Chassis Chassis.ctor]).get_power
      = sum_power [.Bus Bus.ctor, .Card Card.ctor, .FloppyDisk FloppyDisk.ctor,
          .Chassis Chassis.ctor] :=
  (power_total
    [.Bus Bus.ctor, .Card Card.ctor, .FloppyDisk FloppyDisk.ctor, .Chassis Chassis.ctor]
    (by decide)).1

theorem VizPowFn_each_replicate (n : Nat) (hn : 0 < n) (e : var_eqp_t) :
    (VizPowFn.each VizPowFn.ctor (List.replicate n e)).get_power = wrap_int (n * e.Power) ∧
    sum_power (List.replicate n e) = n * e.Power := by
  have hne : List.replicate n e ≠ [] := by
    cases n with
    | zero => omega
    | succ m => exact List.cons_ne_nil _ _
  refine ⟨?_, sum_power_replicate n e⟩
  rw [VizPowFn.get_power, VizPowFn_each_wrap _ _ hne, sum_power_replicate]
  simp [VizPowFn.ctor]

theorem wrap_int_bus_overflow :
    wrap_int (((165191050 : Nat) : Int) * (var_eqp_t.Bus Bus.ctor).Power) = -2147483646 := by
  decide

theorem sum_bus_overflow :
    ((165191050 : Nat) : Int) * (var_eqp_t.Bus Bus.ctor).Power = 2147483650 := by
  decide

/-- C3, counterexample: for 165191050 buses the constants sum to 2147483650, and a
fresh `VizPowFn` applied to each of them reports -2147483646. -/
theorem power_total_overflow :
    (VizPowFn.each VizPowFn.ctor
        (List.replicate 165191050 (var_eqp_t.Bus Bus.ctor))).get_power = -2147483646 ∧
    sum_power (List.replicate 165191050 (var_eqp_t.Bus Bus.ctor)) = 2147483650 ∧
    (VizPowFn.each VizPowFn.ctor
        (List.replicate 165191050 (var_eqp_t.Bus Bus.ctor))).get_power
      ≠ sum_power (List.replicate 165191050 (var_eqp_t.Bus Bus.ctor)) := by
  obtain ⟨hv, hs⟩ := VizPowFn_each_replicate 165191050 (by decide) (var_eqp_t.Bus Bus.ctor)
  rw [wrap_int_bus_overflow] at hv
  rw [sum_bus_overflow] at hs
  rw [hv, hs]
  refine ⟨rfl, rfl, by decide⟩

theorem checked_access_aux (e : var_eqp_t) :
    (holds_alternative_FloppyDisk e = true → ∃ x, e = .FloppyDisk x ∧ get_FloppyDisk e = .ok x) ∧
    (holds_alternative_Card e = true → ∃ x, e = .Card x ∧ get_Card e = .ok x) ∧
    (holds_alternative_Chassis e = true → ∃ x, e = .Chassis x ∧ get_Chassis e = .ok x) ∧
    (holds_alternative_Bus e = true → ∃ x, e = .Bus x ∧ get_Bus e = .ok x) := by
  refine ⟨?_, ?_, ?_, ?_⟩ <;>
  · intro h
    cases e <;>
      first
      | exact ⟨_, rfl, rfl⟩
      | simp [holds_alternative_FloppyDisk, holds_alternative_Card,
          holds_alternative_Chassis, holds_alternative_Bus, var_eqp_t.index] at h

/-! ## The two dispatch styles side by side -/

/-- C4: for every sequence of variant values, a fresh `VIFn` applied to each element
and a fresh `VizInvFn` applied to each element through `std::visit` end with the
same values of `disk_count`, `card_count`, `chassis_count` and `bus_count`. -/
theorem dispatch_styles_agree (xs : List var_eqp_t) (cout1 cout2 : String) :
    ∃ fn out, VIFn.each VIFn.ctor cout1 xs = .ok (fn, out) ∧
      fn.disk_count = (VizInvFn.each VizInvFn.ctor cout2 xs).1.disk_count ∧
      fn.card_count = (VizInvFn.each VizInvFn.ctor cout2 xs).1.card_count ∧
      fn.chassis_count = (VizInvFn.each VizInvFn.ctor cout2 xs).1.chassis_count ∧
      fn.bus_count = (VizInvFn.each VizInvFn.ctor cout2 xs).1.bus_count := by
  obtain ⟨fn, hrun, hc⟩ := VIFn_each_ok xs VIFn.ctor cout1
  obtain ⟨-, hz⟩ := VizInvFn_each_eq xs VizInvFn.ctor cout2
  have key : ∀ k, fn.counter k = (VizInvFn.each VizInvFn.ctor cout2 xs).1.counter k := by
    intro k
    rw [hc k, hz k]
    cases k <;> rfl
  exact ⟨fn, _, hrun, key .FloppyDisk, key .Card, key .Chassis, key .Bus⟩

/-! ## Checked access -/

/-- C5: on every variant value and for each of the four kinds `K`, `std::get<K>`
returns the held value itself when the value holds kind `K` (so a value stored under
`K` is read back unchanged), and fails with `std::bad_variant_access`, returning no
value at all, when it holds another kind. -/
theorem checked_access (e : var_eqp_t) :
    ((∀ x : FloppyDisk, get_FloppyDisk (.FloppyDisk x) = .ok x) ∧
      (holds_alternative_FloppyDisk e = true → ∃ x, e = .FloppyDisk x ∧ get_FloppyDisk e = .ok x) ∧
      (holds_alternative_FloppyDisk e = false →
        get_FloppyDisk e = .error bad_variant_access.mk)) ∧
    ((∀ x : Card, get_Card (.Card x) = .ok x) ∧
      (holds_alternative_Card e = true → ∃ x, e = .Card x ∧ get_Card e = .ok x) ∧
      (holds_alternative_Card e = false → get_Card e = .error bad_variant_access.mk)) ∧
    ((∀ x : Chassis, get_Chassis (.Chassis x) = .ok x) ∧
      (holds_alternative_Chassis e = true → ∃ x, e = .Chassis x ∧ get_Chassis e = .ok x) ∧
      (holds_alternative_Chassis e = false → get_Chassis e = .error bad_variant_access.mk)) ∧
    ((∀ x : Bus, get_Bus (.Bus x) = .ok x) ∧
      (holds_alternative_Bus e = true → ∃ x, e = .Bus x ∧ get_Bus e = .ok x) ∧
      (holds_alternative_Bus e = false → get_Bus e = .error bad_variant_access.mk)) := by
  refine ⟨⟨fun _ => rfl, ?_, ?_⟩, ⟨fun _ => rfl, ?_, ?_⟩, ⟨fun _ => rfl, ?_, ?_⟩,
    ⟨fun _ => rfl, ?_, ?_⟩⟩ <;>
  · intro h
    cases e <;>
      first
      | exact ⟨_, rfl, rfl⟩
      | rfl
      | simp [holds_alternative_FloppyDisk, holds_alternative_Card,
          holds_alternative_Chassis, holds_alternative_Bus, var_eqp_t.index] at h

/-- C5, witness: a variant holding a `Card` gives it back through `get<Card>` and
fails through `get<FloppyDisk>`. -/
theorem checked_access_witness :
    (∃ x, var_eqp_t.Card Card.ctor = .Card x ∧ get_Card (.Card Card.ctor) = .ok x) ∧
    get_FloppyDisk (.Card Card.ctor) = .error bad_variant_access.mk :=
  ⟨(checked_access (.Card Card.ctor)).2.1.2.1 rfl,
    (checked_access (.Card Card.ctor)).1.2.2 rfl⟩

/-! ## Totality -/

/-- C6: no operation other than a bare checked access fails. On every variant value
`VisitInventory` and `VIFn::operator()` return normally, as do their loops over any
sequence, because a check `holds_alternative<K>` that succeeds makes `get<K>` succeed;
`Accept` with an `InventoryVisitor` or a `PricingVisitor`, and `std::visit` with a
`VizInvFn` or a `VizPowFn`, have no failing step and yield the results stated. -/
theorem operations_total (e : var_eqp_t) (xs : List var_eqp_t) (eqp : EquipmentPtr)
    (st : VisitInventory.Statics) (fn : VIFn) (vz : VizInvFn) (pw : VizPowFn)
    (iv : InventoryVisitor) (pv : PricingVisitor) (cout : String) :
    (∃ r, VisitInventory e st cout = .ok r) ∧
    (∃ r, fn.call e cout = .ok r) ∧
    (∃ r, VisitInventory.each st cout xs = .ok r) ∧
    (∃ r, VIFn.each fn cout xs = .ok r) ∧
    (holds_alternative_FloppyDisk e = true → ∃ x, get_FloppyDisk e = .ok x) ∧
    (holds_alternative_Card e = true → ∃ x, get_Card e = .ok x) ∧
    (holds_alternative_Chassis e = true → ∃ x, get_Chassis e = .ok x) ∧
    (holds_alternative_Bus e = true → ∃ x, get_Bus e = .ok x) ∧
    (∀ k, (eqp.Accept InventoryVisitor.vtable iv).counter k
        = if eqp.kind = k then pre_incr (iv.counter k) else iv.counter k) ∧
    eqp.Accept PricingVisitor.vtable pv = pv ∧
    ((vz.visit e cout).2 = cout ++ "VizInvFn: " ++ e.Name ++ "\n" ∧
      ∀ k, (vz.visit e cout).1.counter k
        = if e.kind = k then pre_incr (vz.counter k) else vz.counter k) ∧
    (pw.visit e).total_power = add_assign pw.total_power e.Power := by
  obtain ⟨s1, h1, -⟩ := VisitInventory_ok e st cout
  obtain ⟨s2, h2, -⟩ := VIFn_call_ok fn e cout
  obtain ⟨s3, h3, -⟩ := VisitInventory_each_ok xs st cout
  obtain ⟨s4, h4, -⟩ := VIFn_each_ok xs fn cout
  refine ⟨⟨_, h1⟩, ⟨_, h2⟩, ⟨_, h3⟩, ⟨_, h4⟩, ?_, ?_, ?_, ?_,
    fun k => InventoryVisitor_accept_counter k iv eqp, ?_, VizInvFn_visit_eq vz e cout,
    VizPowFn_visit_total pw e⟩
  · intro h
    obtain ⟨x, -, hx⟩ := (checked_access_aux e).1 h
    exact ⟨x, hx⟩
  · intro h
    obtain ⟨x, -, hx⟩ := (checked_access_aux e).2.1 h
    exact ⟨x, hx⟩
  · intro h
    obtain ⟨x, -, hx⟩ := (checked_access_aux e).2.2.1 h
    exact ⟨x, hx⟩
  · intro h
    obtain ⟨x, -, hx⟩ := (checked_access_aux e).2.2.2 h
    exact ⟨x, hx⟩
  · cases eqp <;> rfl

/-- C6, witness: on a variant holding a `Bus` the check for `Bus` succeeds, and so
does the access `get<Bus>` it guards. -/
theorem operations_total_witness : ∃ x, get_Bus (.Bus Bus.ctor) = .ok x :=
  (operations_total (.Bus Bus.ctor) [] (.Bus Bus.ctor) VisitInventory.Statics.init
    VIFn.ctor VizInvFn.ctor VizPowFn.ctor InventoryVisitor.ctor {} "").2.2.2.2.2.2.2.1 rfl

/-! ## Attributes of the equipment -/

theorem FloppyDisk_Built_eq_ctor {x : FloppyDisk} (h : x.Built) : x = FloppyDisk.ctor := by
  induction h with
  | ctor => rfl
  | copy _ ih => exact ih

theorem Card_Built_eq_ctor {x : Card} (h : x.Built) : x = Card.ctor := by
  induction h with
  | ctor => rfl
  | copy _ ih => exact ih

theorem Chassis_Built_eq_ctor {x : Chassis} (h : x.Built) : x = Chassis.ctor := by
  induction h with
  | ctor => rfl
  | copy _ ih => exact ih

theorem Bus_Built_eq_ctor {x : Bus} (h : x.Built) : x = Bus.ctor := by
  induction h with
  | ctor => rfl
  | copy _ ih => exact ih

theorem var_eqp_t_Built_name_eq {e : var_eqp_t} (h : e.Built) : e.Name = e.kind.label := by
  cases e with
  | FloppyDisk v => rw [FloppyDisk_Built_eq_ctor h]; rfl
  | Card v => rw [Card_Built_eq_ctor h]; rfl
  | Chassis v => rw [Chassis_Built_eq_ctor h]; rfl
  | Bus v => rw [Bus_Built_eq_ctor h]; rfl

theorem EquipmentPtr_Built_name_eq {e : EquipmentPtr} (h : e.Built) :
    e.Name = e.kind.label := by
  cases e with
  | FloppyDisk v => rw [FloppyDisk_Built_eq_ctor h]; rfl
  | Card v => rw [Card_Built_eq_ctor h]; rfl
  | Chassis v => rw [Chassis_Built_eq_ctor h]; rfl
  | Bus v => rw [Bus_Built_eq_ctor h]; rfl

/-- C7: in each of the four classes `Power()`, `NetPrice()` and `DiscountPrice()`
return the one constant of the class (7, 9, 11, 13) on every object, and `Name()`
returns the label of the class on every object made by the constructor or by copying;
the same holds through an `Equipment*` and through a variant, and copying an object,
also into a variant, keeps all four values. No operation of the program has a
statement that writes to an equipment object, so `Accept` and the dispatch operations
return no changed equipment; the object an `Accept` hands to the visitor is the
object itself. -/
theorem attributes_fixed :
    (∀ x : FloppyDisk, x.Power = 7 ∧ x.NetPrice = 7 ∧ x.DiscountPrice = 7 ∧
      (x.Built → x.Name = "FloppyDisk") ∧ x.copy = x) ∧
    (∀ x : Card, x.Power = 9 ∧ x.NetPrice = 9 ∧ x.DiscountPrice = 9 ∧
      (x.Built → x.Name = "Card") ∧ x.copy = x) ∧
    (∀ x : Chassis, x.Power = 11 ∧ x.NetPrice = 11 ∧ x.DiscountPrice = 11 ∧
      (x.Built → x.Name = "Chassis") ∧ x.copy = x) ∧
    (∀ x : Bus, x.Power = 13 ∧ x.NetPrice = 13 ∧ x.DiscountPrice = 13 ∧
      (x.Built → x.Name = "Bus") ∧ x.copy = x) ∧
    (∀ eqp : EquipmentPtr, eqp.Power = eqp.kind.constant ∧
      eqp.NetPrice = eqp.kind.constant ∧ eqp.DiscountPrice = eqp.kind.constant ∧
      (eqp.Built → eqp.Name = eqp.kind.label) ∧
      eqp.to_variant.kind = eqp.kind ∧ eqp.to_variant.Power = eqp.Power ∧
      eqp.to_variant.Name = eqp.Name ∧
      eqp.Accept (spy PricingVisitor.vtable) ({}, [])
        = ({}, [match eqp with
                | .FloppyDisk obj => VisitCall.VisitFloppyDisk obj
                | .Card obj => VisitCall.VisitCard obj
                | .Chassis obj => VisitCall.VisitChassis obj
                | .Bus obj => VisitCall.VisitBus obj])) ∧
    (∀ e : var_eqp_t, e.Power = e.kind.constant ∧ (e.Built → e.Name = e.kind.label)) := by
  refine ⟨fun x => ⟨rfl, rfl, rfl, fun h => ?_, rfl⟩, fun x => ⟨rfl, rfl, rfl, fun h => ?_, rfl⟩,
    fun x => ⟨rfl, rfl, rfl, fun h => ?_, rfl⟩, fun x => ⟨rfl, rfl, rfl, fun h => ?_, rfl⟩,
    fun eqp => ⟨?_, ?_, ?_, fun h => EquipmentPtr_Built_name_eq h, ?_, ?_, ?_, ?_⟩,
    fun e => ⟨var_eqp_t_Power_eq_constant e, fun h => var_eqp_t_Built_name_eq h⟩⟩
  · rw [FloppyDisk_Built_eq_ctor h]; rfl
  · rw [Card_Built_eq_ctor h]; rfl
  · rw [Chassis_Built_eq_ctor h]; rfl
  · rw [Bus_Built_eq_ctor h]; rfl
  all_goals cases eqp <;> rfl

/-- C7, witness: the floppy disk made by the constructor is named "FloppyDisk", and
so is a copy of it. -/
theorem attributes_fixed_witness :
    FloppyDisk.ctor.Name = "FloppyDisk" ∧ FloppyDisk.ctor.copy.Name = "FloppyDisk" :=
  ⟨(attributes_fixed.1 FloppyDisk.ctor).2.2.2.1 FloppyDisk.Built.ctor,
    (attributes_fixed.1 FloppyDisk.ctor.copy).2.2.2.1 (FloppyDisk.Built.copy FloppyDisk.Built.ctor)⟩

/-! ## The text written to the standard output -/

theorem lines_from_line (cur l rest : List Char) (h : '\n' ∉ l) :
    lines_from cur (l ++ '\n' :: rest) = String.mk (cur ++ l) :: lines_from [] rest := by
  induction l generalizing cur with
  | nil => simp [lines_from]
  | cons c l ih =>
    have hc : c ≠ '\n' := fun hc => h (by simp [hc])
    have hl : '\n' ∉ l := fun hl => h (by simp [hl])
    have hstep : lines_from cur (c :: (l ++ '\n' :: rest))
        = lines_from (cur ++ [c]) (l ++ '\n' :: rest) := by
      simp [lines_from, hc]
    rw [List.cons_append, hstep, ih _ hl]
    simp

theorem lines_of_written (line : var_eqp_t → String) (xs : List var_eqp_t)
    (h : ∀ e ∈ xs, '\n' ∉ (line e).data) :
    lines_of (written line xs) = xs.map line := by
  induction xs with
  | nil => rfl
  | cons e rest ih =>
    have he : '\n' ∉ (line e).data := h e (by simp)
    have hrest : ∀ e ∈ rest, '\n' ∉ (line e).data := fun e he => h e (by simp [he])
    have ih2 := ih hrest
    unfold lines_of at ih2 ⊢
    have hdata : (written line (e :: rest)).data
        = (line e).data ++ '\n' :: (written line rest).data := by
      simp [written, String.data_append]
    rw [hdata, lines_from_line _ _ _ he, ih2]
    simp

theorem label_no_newline (k : Kind) :
    '\n' ∉ k.label.data ∧ '\n' ∉ ("VIFn: " ++ k.label).data ∧
      '\n' ∉ ("VizInvFn: " ++ k.label).data := by
  cases k <;> decide

theorem label_drop_tag (k : Kind) :
    ("VIFn: " ++ k.label).drop 6 = k.label ∧ ("VizInvFn: " ++ k.label).drop 10 = k.label := by
  cases k <;> decide

theorem written_congr (f g : var_eqp_t → String) (xs : List var_eqp_t)
    (h : ∀ e ∈ xs, f e = g e) : written f xs = written g xs := by
  induction xs with
  | nil => rfl
  | cons e rest ih =>
    simp only [written]
    rw [h e (by simp), ih (fun e he => h e (by simp [he]))]

/-- C8: for every sequence of variant values (holding objects the program can make),
each of the three traversals appends to the standard output exactly one line per
element, in the order of the sequence: `VisitInventory` the name of the element's
kind, `VIFn` that name after "VIFn: ", `VizInvFn` that name after "VizInvFn: ". So
each of the three texts has as many lines as the sequence has elements, and the
lines of the last two, with the first 6 resp. 10 characters removed, are the lines
of the first. -/
theorem traces_line_per_entity (xs : List var_eqp_t) (hxs : ∀ e ∈ xs, e.Built)
    (st : VisitInventory.Statics) (fn : VIFn) (vz : VizInvFn) (cout : String) :
    ∃ s1 s2 out1 out2 out3,
      VisitInventory.each st cout xs = .ok (s1, cout ++ out1) ∧
      VIFn.each fn cout xs = .ok (s2, cout ++ out2) ∧
      (VizInvFn.each vz cout xs).2 = cout ++ out3 ∧
      out1 = written (fun e => e.kind.label) xs ∧
      out2 = written (fun e => "VIFn: " ++ e.kind.label) xs ∧
      out3 = written (fun e => "VizInvFn: " ++ e.kind.label) xs ∧
      lines_of out1 = xs.map (fun e => e.kind.label) ∧
      lines_of out2 = xs.map (fun e => "VIFn: " ++ e.kind.label) ∧
      lines_of out3 = xs.map (fun e => "VizInvFn: " ++ e.kind.label) ∧
      (lines_of out1).length = xs.length ∧
      (lines_of out2).length = xs.length ∧
      (lines_of out3).length = xs.length ∧
      (lines_of out2).map (fun l => l.drop 6) = lines_of out1 ∧
      (lines_of out3).map (fun l => l.drop 10) = lines_of out1 := by
  obtain ⟨s1, h1, -⟩ := VisitInventory_each_ok xs st cout
  obtain ⟨s2, h2, -⟩ := VIFn_each_ok xs fn cout
  obtain ⟨h3, -⟩ := VizInvFn_each_eq xs vz cout
  have e1 : written var_eqp_t.Name xs = written (fun e => e.kind.label) xs :=
    written_congr _ _ xs (fun e he => var_eqp_t_Built_name_eq (hxs e he))
  have e2 : written (fun e => "VIFn: " ++ e.Name) xs
      = written (fun e => "VIFn: " ++ e.kind.label) xs :=
    written_congr _ _ xs (fun e he => by
      show "VIFn: " ++ e.Name = "VIFn: " ++ e.kind.label
      rw [var_eqp_t_Built_name_eq (hxs e he)])
  have e3 : written (fun e => "VizInvFn: " ++ e.Name) xs
      = written (fun e => "VizInvFn: " ++ e.kind.label) xs :=
    written_congr _ _ xs (fun e he => by
      show "VizInvFn: " ++ e.Name = "VizInvFn: " ++ e.kind.label
      rw [var_eqp_t_Built_name_eq (hxs e he)])
  have l1 : lines_of (written (fun e => e.kind.label) xs) = xs.map (fun e => e.kind.label) :=
    lines_of_written _ xs (fun e _ => (label_no_newline e.kind).1)
  have l2 : lines_of (written (fun e => "VIFn: " ++ e.kind.label) xs)
      = xs.map (fun e => "VIFn: " ++ e.kind.label) :=
    lines_of_written _ xs (fun e _ => (label_no_newline e.kind).2.1)
  have l3 : lines_of (written (fun e => "VizInvFn: " ++ e.kind.label) xs)
      = xs.map (fun e => "VizInvFn: " ++ e.kind.label) :=
    lines_of_written _ xs (fun e _ => (label_no_newline e.kind).2.2)
  refine ⟨s1, s2, _, _, _, by rw [h1, e1], by rw [h2, e2], by rw [h3, e3], rfl, rfl, rfl,
    l1, l2, l3, ?_, ?_, ?_, ?_, ?_⟩
  · rw [l1, List.length_map]
  · rw [l2, List.length_map]
  · rw [l3, List.length_map]
  · rw [l2, l1, List.map_map]
    apply List.map_congr_left
    intro e _
    simp only [Function.comp_apply]
    exact (label_drop_tag e.kind).1
  · rw [l3, l1, List.map_map]
    apply List.map_congr_left
    intro e _
    simp only [Function.comp_apply]
    exact (label_drop_tag e.kind).2

theorem main_equipment_built : ∀ e ∈ main_equipment, e.Built := by
  intro e he
  have hmem : e ∈ [var_eqp_t.Bus Bus.ctor.copy, var_eqp_t.Card Card.ctor.copy,
      var_eqp_t.FloppyDisk FloppyDisk.ctor.copy, var_eqp_t.Chassis Chassis.ctor.copy] := he
  rw [List.mem_cons, List.mem_cons, List.mem_cons, List.mem_singleton] at hmem
  rcases hmem with h | h | h | h
  · rw [h]; exact Bus.Built.copy Bus.Built.ctor
  · rw [h]; exact Card.Built.copy Card.Built.ctor
  · rw [h]; exact FloppyDisk.Built.copy FloppyDisk.Built.ctor
  · rw [h]; exact Chassis.Built.copy Chassis.Built.ctor

/-- C8, witness: the array `equipment` of `main`, traversed from the initial states
with nothing written yet. -/
theorem traces_line_per_entity_witness :
    ∃ s1 s2 out1 out2 out3,
      VisitInventory.each VisitInventory.Statics.init "" main_equipment
        = .ok (s1, "" ++ out1) ∧
      VIFn.each VIFn.ctor "" main_equipment = .ok (s2, "" ++ out2) ∧
      (VizInvFn.each VizInvFn.ctor "" main_equipment).2 = "" ++ out3 ∧
      out1 = written (fun e => e.kind.label) main_equipment ∧
      out2 = written (fun e => "VIFn: " ++ e.kind.label) main_equipment ∧
      out3 = written (fun e => "VizInvFn: " ++ e.kind.label) main_equipment ∧
      lines_of out1 = main_equipment.map (fun e => e.kind.label) ∧
      lines_of out2 = main_equipment.map (fun e => "VIFn: " ++ e.kind.label) ∧
      lines_of out3 = main_equipment.map (fun e => "VizInvFn: " ++ e.kind.label) ∧
      (lines_of out1).length = main_equipment.length ∧
      (lines_of out2).length = main_equipment.length ∧
      (lines_of out3).length = main_equipment.length ∧
      (lines_of out2).map (fun l => l.drop 6) = lines_of out1 ∧
      (lines_of out3).map (fun l => l.drop 10) = lines_of out1 :=
  traces_line_per_entity main_equipment main_equipment_built VisitInventory.Statics.init
    VIFn.ctor VizInvFn.ctor ""

/-! ## The explicit kind checks -/

theorem VIFn_call_eq_branch (self : VIFn) (e : var_eqp_t) (cout : String) :
    self.call e cout = VIFn.branch e.kind self e cout := by
  cases e <;> rfl

theorem VIFn_call_in_order_of_mem (order : List Kind) (self : VIFn) (e : var_eqp_t)
    (cout : String) (h : e.kind ∈ order) :
    VIFn.call_in_order order self e cout = VIFn.branch e.kind self e cout := by
  induction order with
  | nil => simp at h
  | cons k rest ih =>
    by_cases hk : holds_alternative k e = true
    · have hke : e.kind = k := (holds_alternative_iff k e).1 hk
      simp only [VIFn.call_in_order, hk, if_true, hke]
    · have hne : e.kind ≠ k := fun hke => hk ((holds_alternative_iff k e).2 hke)
      have hrest : e.kind ∈ rest := by
        rcases List.mem_cons.1 h with h1 | h1
        · exact absurd h1 hne
        · exact h1
      simp only [VIFn.call_in_order, hk, if_false, Bool.false_eq_true]
      exact ih hrest

/-- C9 (as amended): on every variant value exactly one of the four kind checks
succeeds, the one of the held kind, so the implicit final case of
`VIFn::operator()` is never reached; one call, from every state, applies `++` to the
counter of the held kind and leaves the three other counters unchanged, and when the
counter of the held kind is below `INT_MAX` that makes it one larger; and, from
every state, the chain with its four checks in any other order returns the same
result. -/
theorem kind_check_dispatch (self : VIFn) (e : var_eqp_t) (cout : String) :
    (∃! k, holds_alternative k e = true) ∧
    holds_alternative e.kind e = true ∧
    (holds_alternative_FloppyDisk e || holds_alternative_Card e ||
      holds_alternative_Chassis e || holds_alternative_Bus e) = true ∧
    (∃ s, self.call e cout = .ok (s, cout ++ "VIFn: " ++ e.Name ++ "\n") ∧
      s.counter e.kind = pre_incr (self.counter e.kind) ∧
      (fits_int (self.counter e.kind) 1 → s.counter e.kind = self.counter e.kind + 1) ∧
      ∀ k, k ≠ e.kind → s.counter k = self.counter k) ∧
    VIFn.call_in_order [Kind.FloppyDisk, Kind.Card, Kind.Chassis, Kind.Bus] self e cout
      = self.call e cout ∧
    (∀ order : List Kind, order.Perm [Kind.FloppyDisk, Kind.Card, Kind.Chassis, Kind.Bus] →
      VIFn.call_in_order order self e cout = self.call e cout) := by
  refine ⟨⟨e.kind, (holds_alternative_iff _ e).2 rfl,
      fun k hk => ((holds_alternative_iff k e).1 hk).symm⟩,
    (holds_alternative_iff _ e).2 rfl, ?_, ?_, ?_, ?_⟩
  · cases e <;> rfl
  · obtain ⟨s, hs, hc⟩ := VIFn_call_ok self e cout
    have hheld : s.counter e.kind = pre_incr (self.counter e.kind) := by
      rw [hc e.kind, if_pos rfl]
    refine ⟨s, hs, hheld, fun hfit => ?_, fun k hk => ?_⟩
    · rw [hheld]
      exact pre_incr_of_lt hfit.1 (by have := hfit.2; omega)
    · rw [hc k, if_neg (fun h => hk h.symm)]
  · rw [VIFn_call_eq_branch]
    exact VIFn_call_in_order_of_mem _ self e cout (by cases e.kind <;> simp)
  · intro order horder
    rw [VIFn_call_eq_branch]
    exact VIFn_call_in_order_of_mem _ self e cout
      (horder.mem_iff.2 (by cases e.kind <;> simp))

/-- C9, witness: a fresh `VIFn` called on a variant holding a `Chassis` ends with
`chassis_count` one larger; and a `VIFn` whose `disk_count` is `INT_MAX`, called on a
variant holding a `FloppyDisk`, returns the same result with the checks in the order
Bus, Chassis, Card, FloppyDisk and leaves `bus_count` unchanged. -/
theorem kind_check_dispatch_witness :
    (∃ s, VIFn.ctor.call (.Chassis Chassis.ctor) ""
        = .ok (s, "" ++ "VIFn: " ++ (var_eqp_t.Chassis Chassis.ctor).Name ++ "\n") ∧
      s.counter Kind.Chassis = VIFn.ctor.counter Kind.Chassis + 1) ∧
    VIFn.call_in_order [Kind.Bus, Kind.Chassis, Kind.Card, Kind.FloppyDisk]
        { disk_count := 2147483647, card_count := 0, chassis_count := 0, bus_count := 0 }
        (.FloppyDisk FloppyDisk.ctor) ""
      = VIFn.call
        { disk_count := 2147483647, card_count := 0, chassis_count := 0, bus_count := 0 }
        (.FloppyDisk FloppyDisk.ctor) "" ∧
    (∃ s, VIFn.call
        { disk_count := 2147483647, card_count := 0, chassis_count := 0, bus_count := 0 }
        (.FloppyDisk FloppyDisk.ctor) ""
        = .ok (s, "" ++ "VIFn: " ++ (var_eqp_t.FloppyDisk FloppyDisk.ctor).Name ++ "\n") ∧
      s.counter Kind.Bus = 0) := by
  refine ⟨?_, ?_, ?_⟩
  · obtain ⟨s, h1, -, h3, -⟩ :=
      (kind_check_dispatch VIFn.ctor (.Chassis Chassis.ctor) "").2.2.2.1
    exact ⟨s, h1, h3 ⟨by decide, by decide⟩⟩
  · exact (kind_check_dispatch
      { disk_count := 2147483647, card_count := 0, chassis_count := 0, bus_count := 0 }
      (.FloppyDisk FloppyDisk.ctor) "").2.2.2.2.2
      [Kind.Bus, Kind.Chassis, Kind.Card, Kind.FloppyDisk]
      (List.reverse_perm [Kind.FloppyDisk, Kind.Card, Kind.Chassis, Kind.Bus])
  · obtain ⟨s, h1, -, -, h4⟩ :=
      (kind_check_dispatch
        { disk_count := 2147483647, card_count := 0, chassis_count := 0, bus_count := 0 }
        (.FloppyDisk FloppyDisk.ctor) "").2.2.2.1
    exact ⟨s, h1, h4 Kind.Bus (by decide)⟩

/-- C9, counterexample: a `VIFn` whose `disk_count` is `INT_MAX`, called on a variant
holding a `FloppyDisk`, ends with `disk_count` equal to `INT_MIN`, which is not one
more than `INT_MAX`. -/
theorem kind_check_dispatch_overflow :
    VIFn.call { disk_count := 2147483647, card_count := 0, chassis_count := 0, bus_count := 0 }
        (.FloppyDisk FloppyDisk.ctor) ""
      = .ok ({ disk_count := -2147483648, card_count := 0, chassis_count := 0, bus_count := 0 },
          "VIFn: FloppyDisk\n") ∧
    (-2147483648 : Int) ≠ 2147483647 + 1 := by
  refine ⟨?_, by decide⟩
  have h : pre_incr 2147483647 = -2147483648 := by decide
  simp only [VIFn.call, holds_alternative_FloppyDisk, var_eqp_t.index, get_FloppyDisk, h]
  rfl

/-! ## Accumulation across traversals -/

theorem VisitInventory_Statics_ext_counter {a b : VisitInventory.Statics}
    (h : ∀ k, a.counter k = b.counter k) : a = b := by
  cases a
  cases b
  have h1 := h .FloppyDisk
  have h2 := h .Card
  have h3 := h .Chassis
  have h4 := h .Bus
  simp only [VisitInventory.Statics.counter] at h1 h2 h3 h4
  simp [h1, h2, h3, h4]

theorem VIFn_ext_counter {a b : VIFn} (h : ∀ k, a.counter k = b.counter k) : a = b := by
  cases a
  cases b
  have h1 := h .FloppyDisk
  have h2 := h .Card
  have h3 := h .Chassis
  have h4 := h .Bus
  simp only [VIFn.counter] at h1 h2 h3 h4
  simp [h1, h2, h3, h4]

theorem VizInvFn_ext_counter {a b : VizInvFn} (h : ∀ k, a.counter k = b.counter k) :
    a = b := by
  cases a
  cases b
  have h1 := h .FloppyDisk
  have h2 := h .Card
  have h3 := h .Chassis
  have h4 := h .Bus
  simp only [VizInvFn.counter] at h1 h2 h3 h4
  simp [h1, h2, h3, h4]

theorem VisitInventory_each_append (xs ys : List var_eqp_t) (st : VisitInventory.Statics)
    (cout : String) :
    VisitInventory.each st cout (xs ++ ys)
      = (VisitInventory.each st cout xs).bind (fun r => VisitInventory.each r.1 r.2 ys) := by
  induction xs generalizing st cout with
  | nil => rfl
  | cons e rest ih =>
    obtain ⟨s1, h1, -⟩ := VisitInventory_ok e st cout
    simp only [List.cons_append, VisitInventory.each, h1, bind, Except.bind]
    exact ih _ _

theorem VIFn_each_append (xs ys : List var_eqp_t) (self : VIFn) (cout : String) :
    VIFn.each self cout (xs ++ ys)
      = (VIFn.each self cout xs).bind (fun r => VIFn.each r.1 r.2 ys) := by
  induction xs generalizing self cout with
  | nil => rfl
  | cons e rest ih =>
    obtain ⟨s1, h1, -⟩ := VIFn_call_ok self e cout
    simp only [List.cons_append, VIFn.each, h1, bind, Except.bind]
    exact ih _ _

theorem VizInvFn_each_append (xs ys : List var_eqp_t) (self : VizInvFn) (cout : String) :
    VizInvFn.each self cout (xs ++ ys)
      = VizInvFn.each (VizInvFn.each self cout xs).1 (VizInvFn.each self cout xs).2 ys := by
  induction xs generalizing self cout with
  | nil => rfl
  | cons e rest ih =>
    simp only [List.cons_append, VizInvFn.each]
    exact ih _ _

theorem count_kind_perm (k : Kind) {xs ys : List var_eqp_t} (h : xs.Perm ys) :
    count_kind k xs = count_kind k ys :=
  h.countP_eq _

theorem count_dynamic_perm (k : Kind) {xs ys : List EquipmentPtr} (h : xs.Perm ys) :
    count_dynamic k xs = count_dynamic k ys :=
  h.countP_eq _

theorem sum_power_perm {xs ys : List var_eqp_t} (h : xs.Perm ys) :
    sum_power xs = sum_power ys :=
  (h.map var_eqp_t.Power).sum_eq

theorem VizPowFn_each_perm {xs ys : List var_eqp_t} (h : xs.Perm ys) (self : VizPowFn) :
    VizPowFn.each self xs = VizPowFn.each self ys := by
  rcases xs with _ | ⟨x, xs⟩
  · rw [h.nil_eq]
  · have hy : ys ≠ [] := fun hy => by
      rw [hy] at h
      exact List.cons_ne_nil _ _ h.eq_nil
    have e1 := VizPowFn_each_wrap (x :: xs) self (List.cons_ne_nil _ _)
    have e2 := VizPowFn_each_wrap ys self hy
    rw [sum_power_perm h, ← e2] at e1
    cases hx : VizPowFn.each self (x :: xs)
    cases hys : VizPowFn.each self ys
    rw [hx, hys] at e1
    simpa using e1

/-- C10 (as amended): no traversal resets an accumulator. From every initial state,
a traversal with `InventoryVisitor`, `VisitInventory`, `VIFn` or `VizInvFn` ends with
the counter of a kind equal to its initial value plus the number of elements of that
kind, and `VizPowFn` with its initial total plus the sum of the powers, whenever that
counter or total stays within the range of `int`; traversing `xs` and then `ys` with
the same accumulator is traversing `xs ++ ys`; and the final counters and total do not
depend on the order of the elements. -/
theorem accumulators_never_reset (k : Kind) (es es2 : List EquipmentPtr)
    (xs ys : List var_eqp_t) (iv : InventoryVisitor) (st : VisitInventory.Statics)
    (fn : VIFn) (vz : VizInvFn) (pw : VizPowFn) (cout : String) :
    ((fits_int (iv.counter k) (count_dynamic k es) →
        (accept_each InventoryVisitor.vtable iv es).counter k
          = iv.counter k + count_dynamic k es) ∧
      (fits_int (st.counter k) (count_kind k xs) →
        ∃ r, VisitInventory.each st cout xs = .ok r ∧
          r.1.counter k = st.counter k + count_kind k xs) ∧
      (fits_int (fn.counter k) (count_kind k xs) →
        ∃ r, VIFn.each fn cout xs = .ok r ∧
          r.1.counter k = fn.counter k + count_kind k xs) ∧
      (fits_int (vz.counter k) (count_kind k xs) →
        (VizInvFn.each vz cout xs).1.counter k = vz.counter k + count_kind k xs) ∧
      (fits_int pw.total_power (sum_power xs) →
        (VizPowFn.each pw xs).get_power = pw.total_power + sum_power xs)) ∧
    (accept_each InventoryVisitor.vtable iv (es ++ es2)
        = accept_each InventoryVisitor.vtable (accept_each InventoryVisitor.vtable iv es) es2 ∧
      VisitInventory.each st cout (xs ++ ys)
        = (VisitInventory.each st cout xs).bind (fun r => VisitInventory.each r.1 r.2 ys) ∧
      VIFn.each fn cout (xs ++ ys)
        = (VIFn.each fn cout xs).bind (fun r => VIFn.each r.1 r.2 ys) ∧
      VizInvFn.each vz cout (xs ++ ys)
        = VizInvFn.each (VizInvFn.each vz cout xs).1 (VizInvFn.each vz cout xs).2 ys ∧
      VizPowFn.each pw (xs ++ ys) = VizPowFn.each (VizPowFn.each pw xs) ys) ∧
    ((es.Perm es2 →
        accept_each InventoryVisitor.vtable iv es
          = accept_each InventoryVisitor.vtable iv es2) ∧
      (xs.Perm ys →
        ∃ r1 r2, VisitInventory.each st cout xs = .ok r1 ∧
          VisitInventory.each st cout ys = .ok r2 ∧ r1.1 = r2.1) ∧
      (xs.Perm ys →
        ∃ r1 r2, VIFn.each fn cout xs = .ok r1 ∧ VIFn.each fn cout ys = .ok r2 ∧
          r1.1 = r2.1) ∧
      (xs.Perm ys → (VizInvFn.each vz cout xs).1 = (VizInvFn.each vz cout ys).1) ∧
      (xs.Perm ys → VizPowFn.each pw xs = VizPowFn.each pw ys)) := by
  refine ⟨⟨?_, ?_, ?_, ?_, ?_⟩,
    ⟨accept_each_append _ iv es es2, VisitInventory_each_append xs ys st cout,
      VIFn_each_append xs ys fn cout, VizInvFn_each_append xs ys vz cout,
      VizPowFn_each_append xs ys pw⟩,
    ⟨?_, ?_, ?_, ?_, fun h => VizPowFn_each_perm h pw⟩⟩
  · intro h
    rw [InventoryVisitor_accept_each_counter, iterate_pre_incr_fits _ _ h]
  · intro h
    obtain ⟨s, hs, hc⟩ := VisitInventory_each_ok xs st cout
    exact ⟨_, hs, by rw [hc k, iterate_pre_incr_fits _ _ h]⟩
  · intro h
    obtain ⟨s, hs, hc⟩ := VIFn_each_ok xs fn cout
    exact ⟨_, hs, by rw [hc k, iterate_pre_incr_fits _ _ h]⟩
  · intro h
    rw [(VizInvFn_each_eq xs vz cout).2 k, iterate_pre_incr_fits _ _ h]
  · intro h
    exact VizPowFn_each_fits xs pw h
  · intro h
    apply InventoryVisitor_ext_counter
    intro j
    rw [InventoryVisitor_accept_each_counter, InventoryVisitor_accept_each_counter,
      count_dynamic_perm j h]
  · intro h
    obtain ⟨s1, hs1, hc1⟩ := VisitInventory_each_ok xs st cout
    obtain ⟨s2, hs2, hc2⟩ := VisitInventory_each_ok ys st cout
    refine ⟨_, _, hs1, hs2, VisitInventory_Statics_ext_counter (fun j => ?_)⟩
    rw [hc1 j, hc2 j, count_kind_perm j h]
  · intro h
    obtain ⟨s1, hs1, hc1⟩ := VIFn_each_ok xs fn cout
    obtain ⟨s2, hs2, hc2⟩ := VIFn_each_ok ys fn cout
    refine ⟨_, _, hs1, hs2, VIFn_ext_counter (fun j => ?_)⟩
    rw [hc1 j, hc2 j, count_kind_perm j h]
  · intro h
    apply VizInvFn_ext_counter
    intro j
    rw [(VizInvFn_each_eq xs vz cout).2 j, (VizInvFn_each_eq ys vz cout).2 j,
      count_kind_perm j h]

/-- C10, witness: an `InventoryVisitor` that already holds the counts 3, 1, 4, 1 and a
`VizPowFn` that already holds 100, run over the arrays of `main`; and the array
`equipment` against its reversal. -/
theorem accumulators_never_reset_witness :
    (accept_each InventoryVisitor.vtable
        { disk_count := 3, card_count := 1, chassis_count := 4, bus_count := 1 }
        main_eq_arr).counter Kind.Chassis
      = 4 + count_dynamic Kind.Chassis main_eq_arr ∧
    (VizPowFn.each { total_power := 100 } main_equipment).get_power
      = 100 + sum_power main_equipment ∧
    VizPowFn.each { total_power := 100 } main_equipment
      = VizPowFn.each { total_power := 100 } main_equipment.reverse :=
  ⟨(accumulators_never_reset Kind.Chassis main_eq_arr [] main_equipment
      main_equipment.reverse
      { disk_count := 3, card_count := 1, chassis_count := 4, bus_count := 1 }
      VisitInventory.Statics.init VIFn.ctor VizInvFn.ctor { total_power := 100 } "").1.1
      ⟨by decide, by decide⟩,
    (accumulators_never_reset Kind.Chassis main_eq_arr [] main_equipment
      main_equipment.reverse
      { disk_count := 3, card_count := 1, chassis_count := 4, bus_count := 1 }
      VisitInventory.Statics.init VIFn.ctor VizInvFn.ctor { total_power := 100 } "").1.2.2.2.2
      ⟨by decide, by decide⟩,
    (accumulators_never_reset Kind.Chassis main_eq_arr [] main_equipment
      main_equipment.reverse
      { disk_count := 3, card_count := 1, chassis_count := 4, bus_count := 1 }
      VisitInventory.Statics.init VIFn.ctor VizInvFn.ctor { total_power := 100 } "").2.2.2.2.2.2
      (List.reverse_perm main_equipment).symm⟩

/-- C10, counterexample: an `InventoryVisitor` whose `disk_count` is `INT_MAX` accepts
one floppy disk and ends with `disk_count` equal to `INT_MIN`, not with its initial
value plus one. -/
theorem accumulators_never_reset_overflow :
    accept_each InventoryVisitor.vtable
        { disk_count := 2147483647, card_count := 0, chassis_count := 0, bus_count := 0 }
        [EquipmentPtr.FloppyDisk FloppyDisk.ctor]
      = { disk_count := -2147483648, card_count := 0, chassis_count := 0, bus_count := 0 } ∧
    (-2147483648 : Int)
      ≠ 2147483647 + (count_dynamic Kind.FloppyDisk [EquipmentPtr.FloppyDisk FloppyDisk.ctor] : Int) := by
  refine ⟨by decide, by decide⟩

/-! ## States in which a counter holds `INT_MAX` are reached by long traversals -/

theorem count_kind_replicate (k : Kind) (n : Nat) (e : var_eqp_t) :
    count_kind k (List.replicate n e) = if e.kind = k then n else 0 := by
  by_cases h : e.kind = k
  · simp [count_kind, List.countP_replicate, holds_alternative_iff, h]
  · simp [count_kind, List.countP_replicate, holds_alternative_iff, h]

theorem count_dynamic_replicate_ite (k : Kind) (n : Nat) (e : EquipmentPtr) :
    count_dynamic k (List.replicate n e) = if e.kind = k then n else 0 := by
  by_cases h : e.kind = k
  · simp [count_dynamic, List.countP_replicate, h]
  · simp [count_dynamic, List.countP_replicate, h]

theorem InventoryVisitor_reaches (n : Nat) (hn : (n : Int) ≤ INT_MAX) :
    accept_each InventoryVisitor.vtable InventoryVisitor.ctor
        (List.replicate n (EquipmentPtr.FloppyDisk FloppyDisk.ctor))
      = { disk_count := n, card_count := 0, chassis_count := 0, bus_count := 0 } := by
  apply InventoryVisitor_ext_counter
  intro k
  rw [InventoryVisitor_accept_each_counter, count_dynamic_replicate_ite]
  cases k
  · simp only [EquipmentPtr.kind, if_true]
    rw [iterate_pre_incr_fits n _ ⟨by decide, by
      simpa [InventoryVisitor.counter, InventoryVisitor.ctor] using hn⟩]
    simp [InventoryVisitor.counter, InventoryVisitor.ctor]
  all_goals
    simp only [EquipmentPtr.kind, reduceCtorEq, if_false]
    rfl

theorem VIFn_reaches (n : Nat) (hn : (n : Int) ≤ INT_MAX) (cout : String) :
    ∃ out, VIFn.each VIFn.ctor cout (List.replicate n (var_eqp_t.FloppyDisk FloppyDisk.ctor))
      = .ok ({ disk_count := n, card_count := 0, chassis_count := 0, bus_count := 0 }, out) := by
  obtain ⟨s, hs, hc⟩ := VIFn_each_ok
    (List.replicate n (var_eqp_t.FloppyDisk FloppyDisk.ctor)) VIFn.ctor cout
  have hstate : s = { disk_count := n, card_count := 0, chassis_count := 0, bus_count := 0 } := by
    apply VIFn_ext_counter
    intro k
    rw [hc k, count_kind_replicate]
    cases k
    · simp only [var_eqp_t.kind, if_true]
      rw [iterate_pre_incr_fits n _ ⟨by decide, by
        simpa [VIFn.counter, VIFn.ctor] using hn⟩]
      simp [VIFn.counter, VIFn.ctor]
    all_goals
      simp only [var_eqp_t.kind, reduceCtorEq, if_false]
      rfl
  exact ⟨_, hstate ▸ hs⟩

/-- A fresh `InventoryVisitor` that has accepted `2^31 - 1` floppy disks holds
`INT_MAX` in `disk_count`. -/
theorem InventoryVisitor_reaches_int_max :
    accept_each InventoryVisitor.vtable InventoryVisitor.ctor
        (List.replicate 2147483647 (EquipmentPtr.FloppyDisk FloppyDisk.ctor))
      = { disk_count := 2147483647, card_count := 0, chassis_count := 0, bus_count := 0 } :=
  InventoryVisitor_reaches 2147483647 (by decide)

/-- A fresh `VIFn` that has been called on `2^31 - 1` floppy disks holds `INT_MAX` in
`disk_count`. -/
theorem VIFn_reaches_int_max (cout : String) :
    ∃ out, VIFn.each VIFn.ctor cout
        (List.replicate 2147483647 (var_eqp_t.FloppyDisk FloppyDisk.ctor))
      = .ok ({ disk_count := 2147483647, card_count := 0, chassis_count := 0,
                bus_count := 0 }, out) :=
  VIFn_reaches 2147483647 (by decide) cout

/-! ## The object counter -/

theorem ObjectCounter_objects_card_le (objects : Finset Nat)
    (h : ∀ a ∈ objects, 0 < a ∧ a ≤ SIZE_MAX) : objects.card ≤ SIZE_MAX := by
  have hsub : objects ⊆ Finset.Icc 1 SIZE_MAX := fun a ha =>
    Finset.mem_Icc.2 ⟨(h a ha).1, (h a ha).2⟩
  have hcard := Finset.card_le_card hsub
  rw [Nat.card_Icc] at hcard
  omega

theorem ObjectCounter_init_consistent : ObjectCounter.World.init.consistent :=
  ⟨rfl, fun a ha => absurd ha (Finset.not_mem_empty a)⟩

theorem ObjectCounter_construct_consistent (w : ObjectCounter.World) (addr : Nat)
    (hw : w.consistent) (hpos : 0 < addr) (hmax : addr ≤ SIZE_MAX) (hfresh : addr ∉ w.objects) :
    size_pre_incr w.statics.count = w.statics.count + 1 ∧
    size_pre_incr w.statics.count = (insert addr w.objects).card ∧
    ∀ a ∈ insert addr w.objects, 0 < a ∧ a ≤ SIZE_MAX := by
  have hall : ∀ a ∈ insert addr w.objects, 0 < a ∧ a ≤ SIZE_MAX := by
    intro a ha
    rcases Finset.mem_insert.1 ha with h | h
    · rw [h]
      exact ⟨hpos, hmax⟩
    · exact hw.2 a h
  have hle := ObjectCounter_objects_card_le _ hall
  rw [Finset.card_insert_of_not_mem hfresh] at hle
  have hstep : size_pre_incr w.statics.count = w.statics.count + 1 := by
    have hc := hw.1
    unfold size_pre_incr
    unfold SIZE_MAX at hle
    omega
  refine ⟨hstep, ?_, hall⟩
  rw [hstep, Finset.card_insert_of_not_mem hfresh, hw.1]

theorem ObjectCounter_destroy_consistent (w : ObjectCounter.World) (addr : Nat)
    (hw : w.consistent) (hlive : addr ∈ w.objects) :
    0 < w.statics.count ∧
    size_pre_decr w.statics.count + 1 = w.statics.count ∧
    size_pre_decr w.statics.count = (w.objects.erase addr).card ∧
    ∀ a ∈ w.objects.erase addr, 0 < a ∧ a ≤ SIZE_MAX := by
  have hle := ObjectCounter_objects_card_le _ hw.2
  have hpos : 0 < w.objects.card := Finset.card_pos.2 ⟨addr, hlive⟩
  have hc := hw.1
  have hstep : size_pre_decr w.statics.count + 1 = w.statics.count := by
    unfold size_pre_decr
    unfold SIZE_MAX at hle
    omega
  refine ⟨by omega, hstep, ?_, fun a ha => hw.2 a (Finset.mem_of_mem_erase ha)⟩
  rw [Finset.card_erase_of_mem hlive]
  omega

theorem ObjectCounter_step_consistent (w : ObjectCounter.World) (ev : ObjectCounter.Event)
    (hw : w.consistent) (hev : ev.possible w) :
    (w.step ev).consistent ∧
    (ev.is_construction = true → (w.step ev).statics.count = w.statics.count + 1) ∧
    (ev.is_construction = false →
      0 < w.statics.count ∧ (w.step ev).statics.count + 1 = w.statics.count) := by
  cases ev with
  | default_construct addr =>
    obtain ⟨h1, h2, h3⟩ := ObjectCounter_construct_consistent w addr hw hev.1 hev.2.1 hev.2.2
    exact ⟨⟨h2, h3⟩, fun _ => h1, fun h => by simp [ObjectCounter.Event.is_construction] at h⟩
  | copy_construct addr =>
    obtain ⟨h1, h2, h3⟩ := ObjectCounter_construct_consistent w addr hw hev.1 hev.2.1 hev.2.2
    exact ⟨⟨h2, h3⟩, fun _ => h1, fun h => by simp [ObjectCounter.Event.is_construction] at h⟩
  | move_construct addr =>
    obtain ⟨h1, h2, h3⟩ := ObjectCounter_construct_consistent w addr hw hev.1 hev.2.1 hev.2.2
    exact ⟨⟨h2, h3⟩, fun _ => h1, fun h => by simp [ObjectCounter.Event.is_construction] at h⟩
  | destroy addr =>
    obtain ⟨h0, h1, h2, h3⟩ := ObjectCounter_destroy_consistent w addr hw hev
    exact ⟨⟨h2, h3⟩, fun h => by simp [ObjectCounter.Event.is_construction] at h,
      fun _ => ⟨h0, h1⟩⟩

theorem ObjectCounter_run_consistent (evs : List ObjectCounter.Event)
    (w : ObjectCounter.World) (hw : w.consistent) (hevs : w.admits evs) :
    (w.run evs).consistent ∧
    ((w.run evs).statics.count : Int)
      = w.statics.count + ObjectCounter.constructions evs - ObjectCounter.destructions evs := by
  induction evs generalizing w with
  | nil => exact ⟨hw, by simp [ObjectCounter.World.run, ObjectCounter.constructions,
      ObjectCounter.destructions]⟩
  | cons ev rest ih =>
    obtain ⟨hev, hrest⟩ := hevs
    obtain ⟨hc, hup, hdown⟩ := ObjectCounter_step_consistent w ev hw hev
    obtain ⟨hfin, hcount⟩ := ih (w.step ev) hc hrest
    refine ⟨hfin, ?_⟩
    rw [ObjectCounter.World.run, hcount]
    cases hk : ev.is_construction
    · obtain ⟨-, hd⟩ := hdown hk
      simp only [ObjectCounter.constructions, ObjectCounter.destructions, List.countP_cons, hk]
      simp only [Bool.not_false, if_true, Bool.false_eq_true, if_false]
      push_cast
      omega
    · have hu := hup hk
      simp only [ObjectCounter.constructions, ObjectCounter.destructions, List.countP_cons, hk]
      simp only [Bool.not_true, if_true, Bool.false_eq_true, if_false]
      push_cast
      omega

theorem ObjectCounter_run_append (pre : List ObjectCounter.Event) (ev : ObjectCounter.Event)
    (w : ObjectCounter.World) : w.run (pre ++ [ev]) = (w.run pre).step ev := by
  induction pre generalizing w with
  | nil => rfl
  | cons e rest ih => exact ih _

theorem ObjectCounter_admits_append (pre : List ObjectCounter.Event)
    (ev : ObjectCounter.Event) (w : ObjectCounter.World) (h : w.admits (pre ++ [ev])) :
    w.admits pre ∧ ev.possible (w.run pre) := by
  induction pre generalizing w with
  | nil => exact ⟨trivial, h.1⟩
  | cons e rest ih =>
    obtain ⟨he, hrest⟩ := h
    obtain ⟨h1, h2⟩ := ih (w.step e) hrest
    exact ⟨⟨he, h1⟩, h2⟩

/-- C11: `live()` is the number of objects of the counted type that are alive. It
starts at 0; in every sequence of constructions (default, copy or move, each of an
object at an address where none is alive) and destructions (each of an object that is
alive), every construction makes `live()` one larger, every destruction finds it
positive and makes it one smaller, and at the end `live()` is the number of objects
alive, which is the number of constructions minus the number of destructions, so the
destructions never outnumber the constructions. In `crtp_counter_client`, once
`some_pod` and the 11 elements of `vec` are constructed, `live()` is 12, which is
what the function prints. -/
theorem object_counter_live (evs : List ObjectCounter.Event)
    (h : ObjectCounter.World.init.admits evs) :
    ObjectCounter.live ObjectCounter.World.init.statics = 0 ∧
    ObjectCounter.live (ObjectCounter.World.init.run evs).statics
      = (ObjectCounter.World.init.run evs).objects.card ∧
    (ObjectCounter.live (ObjectCounter.World.init.run evs).statics : Int)
      = (ObjectCounter.constructions evs : Int) - ObjectCounter.destructions evs ∧
    ObjectCounter.destructions evs ≤ ObjectCounter.constructions evs ∧
    (∀ pre ev, evs = pre ++ [ev] →
      (ev.is_construction = true →
        ObjectCounter.live (ObjectCounter.World.init.run evs).statics
          = ObjectCounter.live (ObjectCounter.World.init.run pre).statics + 1) ∧
      (ev.is_construction = false →
        0 < ObjectCounter.live (ObjectCounter.World.init.run pre).statics ∧
        ObjectCounter.live (ObjectCounter.World.init.run evs).statics + 1
          = ObjectCounter.live (ObjectCounter.World.init.run pre).statics)) ∧
    ObjectCounter.live (crtp_counter_client_locals ObjectCounter.Statics.init).2.2 = 12 ∧
    crtp_counter_client ObjectCounter.Statics.init ""
      = ({ count := 0 }, "Pod count:\t 12\nPod default data: 0\n") := by
  obtain ⟨hfin, hcount⟩ :=
    ObjectCounter_run_consistent evs ObjectCounter.World.init ObjectCounter_init_consistent h
  have hzero : (ObjectCounter.World.init.statics.count : Int) = 0 := rfl
  rw [hzero] at hcount
  refine ⟨rfl, hfin.1, by simpa [ObjectCounter.live] using hcount, by omega, ?_, by decide,
    by rfl⟩
  intro pre ev hsplit
  subst hsplit
  obtain ⟨hpre, hev⟩ := ObjectCounter_admits_append pre ev ObjectCounter.World.init h
  obtain ⟨hprefin, -⟩ :=
    ObjectCounter_run_consistent pre ObjectCounter.World.init ObjectCounter_init_consistent hpre
  obtain ⟨-, hup, hdown⟩ := ObjectCounter_step_consistent _ ev hprefin hev
  rw [ObjectCounter_run_append]
  exact ⟨hup, hdown⟩

theorem crtp_counter_client_events_admitted :
    ObjectCounter.World.init.admits crtp_counter_client_events := by
  simp [crtp_counter_client_events, ObjectCounter.World.admits, ObjectCounter.Event.possible,
    ObjectCounter.World.step, ObjectCounter.World.init, SIZE_MAX, List.range, List.range.loop]

/-- C11, witness: the twelve constructions of `crtp_counter_client`, after which
`live()` equals the number of objects alive and the number of constructions. -/
theorem object_counter_live_witness :
    ObjectCounter.live (ObjectCounter.World.init.run crtp_counter_client_events).statics
      = (ObjectCounter.World.init.run crtp_counter_client_events).objects.card ∧
    (ObjectCounter.live (ObjectCounter.World.init.run crtp_counter_client_events).statics : Int)
      = (ObjectCounter.constructions crtp_counter_client_events : Int)
        - ObjectCounter.destructions crtp_counter_client_events ∧
    ObjectCounter.constructions crtp_counter_client_events = 12 ∧
    ObjectCounter.destructions crtp_counter_client_events = 0 :=
  ⟨(object_counter_live crtp_counter_client_events crtp_counter_client_events_admitted).2.1,
    (object_counter_live crtp_counter_client_events crtp_counter_client_events_admitted).2.2.1,
    by decide, by decide⟩

end DesignPatterns
